import Mathlib

/-!
# Calorie tracker backend: the user record store of `BACKEND1/server.js`

A shallow embedding of the request handlers of `server.js` that read and write
`users.json`, and the properties of the stored user collection; and of `loadFoods` and
the handler of `GET /foods`, over the three states `foods.json` can be in.

Modelling conventions.

* The stored collection (the parsed content of `users.json`) is a `List UserRecord`.
  A missing or empty file loads as `[]`, which is also what `loadUsers` creates.
  Every handler starts with `loadUsers()` and every successful write ends with
  `saveUsers(users)`; a handler is a function from the stored collection and the
  request fields to the response and the stored collection afterwards.  File-system
  failures (which `loadUsers`/`saveUsers` log and swallow) and exhausted resources
  are outside the model.
* A request field is a `JsValue`: a value of the parsed JSON body or query string,
  `undefined` when the field is absent.  `JSON.parse` yields finite numbers, `-0`, and
  `Infinity` or `-Infinity` for a literal out of range such as `1e400`; a finite number
  is carried as the rational it denotes.  Arrays and objects are carried by the text
  `JSON.stringify` writes for them; `===` on them is reference equality, which never
  holds between a value parsed from a request and a value loaded from the file.
* What is written to `users.json` and what `res.json` sends goes through
  `JSON.stringify`, which writes `null` for a non-finite number and `0` for `-0`
  (`jsonValue`).  The values loaded from the file are already in that form, so only
  the values a handler takes from the request are converted.
* A template literal in a log line converts its values to strings, and throws for an
  object with an own property `toString` (`printable`); express answers an exception of
  a handler with status 500.  The log lines that pass their values as arguments of
  `console.log` do not throw.
* Each handler is one synchronous callback (`readFileSync` up to `writeFileSync`) and is
  one function here, from what `loadUsers` returned to what `saveUsers` wrote.  Two
  handlers that loaded the same file content, which takes two server processes on one
  file, are composed by `addMealRace`.
-/

namespace CalorieTracker

/-- A JavaScript value as the handlers see it in `req.body`, `req.query` or a stored record. -/
inductive JsValue where
  /-- The field is absent. -/
  | undefined
  | null
  | bool (b : Bool)
  /-- A finite double other than `-0`, given by its value.  A JSON literal beyond the range
  of a double, such as `1e400`, is not of this form: it parses to `infinity`. -/
  | number (x : ℚ)
  /-- The double `-0`, which is falsy and `===` to `0`. -/
  | negativeZero
  /-- The doubles `Infinity` and `-Infinity`, which are truthy. -/
  | infinity (negative : Bool)
  | string (s : String)
  /-- An array or object, given by the text `JSON.stringify` writes for it and by whether a
  template literal can convert it to a string. -/
  | composite (json : String) (printable : Bool)
  deriving DecidableEq, Repr

/-- JavaScript truthiness: `!v` is `false` exactly when `truthy v`. -/
def truthy : JsValue → Bool
  | .undefined => false
  | .null => false
  | .bool b => b
  | .number x => x != 0
  | .negativeZero => false
  | .infinity _ => true
  | .string s => s != ""
  | .composite _ _ => true

/-- The operator `===` between a stored value and a request value. -/
def strictEq : JsValue → JsValue → Bool
  | .undefined, .undefined => true
  | .null, .null => true
  | .bool a, .bool b => a == b
  | .number a, .number b => a == b
  | .number a, .negativeZero => a == 0
  | .negativeZero, .number b => b == 0
  | .negativeZero, .negativeZero => true
  | .infinity a, .infinity b => a == b
  | .string a, .string b => a == b
  | _, _ => false

/-- The value as `JSON.stringify` writes it and `JSON.parse` reads it back: `null` for a
non-finite number, `0` for `-0`, every other value unchanged. -/
def jsonValue : JsValue → JsValue
  | .negativeZero => .number 0
  | .infinity _ => .null
  | v => v

/-- Whether a template literal converts the value to a string without throwing.  Only an
array or object can fail: an object whose own property `toString` hides the inherited
method, or an array that holds such an object.  The flag of `composite` records it. -/
def printable : JsValue → Bool
  | .composite _ ok => ok
  | _ => true

/-- One element of a user's `meals` array: `{ date, totalCalories }`. -/
structure MealEntry where
  date : JsValue
  totalCalories : JsValue
  deriving DecidableEq, Repr

/-- One element of `users.json`.  `meals = none` is a record without a `meals` property,
which is how `/signup` creates it. -/
structure UserRecord where
  email : JsValue
  password : JsValue
  bmi : JsValue
  bmiStatus : JsValue
  meals : Option (List MealEntry)
  deriving DecidableEq, Repr

/-- One element of `foods.json`. -/
structure FoodItem where
  id : Nat
  name : String
  calories : ℚ
  protein : ℚ
  carbs : ℚ
  fats : ℚ
  deriving DecidableEq, Repr

/-- The payload of a response: the JSON a handler sends, or `serverError` for the error
page express sends when the handler throws. -/
inductive Body where
  | message (message : String)
  | meals (meals : List MealEntry)
  | mealLogged (message : String) (meals : List MealEntry)
  | bmi (bmi : JsValue) (status : JsValue)
  | bmiSaved (message : String) (updatedUser : UserRecord)
  | users (users : List UserRecord)
  | foods (foods : List FoodItem)
  | serverError
  deriving DecidableEq, Repr

/-- An HTTP response: status code and JSON payload (`res.json` alone answers 200). -/
structure Response where
  status : Nat
  body : Body
  deriving DecidableEq, Repr

/-- `Array.prototype.findIndex`: the index of the first element satisfying `p`,
`none` standing for `-1`. -/
def findIndex {α : Type} (p : α → Bool) : List α → Option Nat
  | [] => none
  | x :: xs => if p x then some 0 else (findIndex p xs).map (· + 1)

/-- `user.meals || []`, and the array that `/add-meal` works on after
`if (!users[userIndex].meals) users[userIndex].meals = []`. -/
def mealsOf (user : UserRecord) : List MealEntry :=
  user.meals.getD []

/-- Handler of `GET /user-meals`. -/
def userMeals (users : List UserRecord) (email : JsValue) : Response × List UserRecord :=
  match users.find? (fun user => strictEq user.email email) with
  | none => (⟨404, .message "User not found"⟩, users)
  | some user => (⟨200, .meals (mealsOf user)⟩, users)

/-- Handler of `POST /add-meal`.  `users[userIndex]` is read with `users[userIndex]?`; its
`none` branch is never taken, since `findIndex` returns an index into `users`
(`findIndex_eq_some`).  After `saveUsers(users)` the log line
``console.log(`... ${email} on ${date}: ${totalCalories} cal`)`` runs before `res.json`:
when it throws, the file is already written and the answer is 500. -/
def addMeal (users : List UserRecord) (email date totalCalories : JsValue) :
    Response × List UserRecord :=
  if !truthy email || !truthy date || strictEq totalCalories .undefined then
    (⟨400, .message "All fields are required."⟩, users)
  else
    match findIndex (fun user => strictEq user.email email) users with
    | none => (⟨404, .message "User not found."⟩, users)
    | some userIndex =>
      match users[userIndex]? with
      | none => (⟨404, .message "User not found."⟩, users)
      | some user =>
        match (mealsOf user).find? (fun meal => strictEq meal.date date) with
        | some _ => (⟨400, .message "You have already logged a meal for this date."⟩, users)
        | none =>
          let meals := mealsOf user ++ [⟨jsonValue date, jsonValue totalCalories⟩]
          let users' := users.set userIndex { user with meals := some meals }
          if printable email && printable date && printable totalCalories then
            (⟨200, .mealLogged "Meal logged successfully" meals⟩, users')
          else
            (⟨500, .serverError⟩, users')

/-- Handler of `POST /signup`.  Its log line passes `email` as an argument of `console.log`
and does not throw. -/
def signup (users : List UserRecord) (email password : JsValue) : Response × List UserRecord :=
  if !truthy email || !truthy password then
    (⟨400, .message "Email and password are required."⟩, users)
  else if users.any (fun user => strictEq user.email email) then
    (⟨400, .message "User already exists."⟩, users)
  else
    (⟨201, .message "Signup successful. Redirecting to login..."⟩,
      users ++ [⟨jsonValue email, jsonValue password, .null, .string "", none⟩])

/-- Handler of `POST /login`. -/
def login (users : List UserRecord) (email password : JsValue) : Response × List UserRecord :=
  match users.find? (fun user => strictEq user.email email && strictEq user.password password) with
  | none => (⟨401, .message "Invalid email or password."⟩, users)
  | some _ => (⟨200, .message "Login successful."⟩, users)

/-- Handler of `GET /user-bmi`. -/
def userBmi (users : List UserRecord) (email : JsValue) : Response × List UserRecord :=
  match users.find? (fun user => strictEq user.email email) with
  | some user => (⟨200, .bmi user.bmi user.bmiStatus⟩, users)
  | none => (⟨404, .message "User not found"⟩, users)

/-- The branch of `POST /save-bmi` for an email that `findIndex` does not find: the log line
``console.error(`... User not found: ${email}`)`` runs before the 400 answer. -/
def saveBmiNotFound (users : List UserRecord) (email : JsValue) : Response × List UserRecord :=
  if printable email then
    (⟨400, .message "User not found"⟩, users)
  else
    (⟨500, .serverError⟩, users)

/-- Handler of `POST /save-bmi`.  As in `addMeal`, the `none` branch of `users[userIndex]?`
is never taken.  After `saveUsers(users)` the log line
``console.log(`... ${email}: ${bmi} (${status})`)`` runs before `res.json`: when it
throws, the file is already written and the answer is 500. -/
def saveBmi (users : List UserRecord) (email bmi status : JsValue) : Response × List UserRecord :=
  if !truthy email || !truthy bmi || !truthy status then
    (⟨400, .message "Missing email, bmi, or status"⟩, users)
  else
    match findIndex (fun user => strictEq user.email email) users with
    | some userIndex =>
      match users[userIndex]? with
      | some user =>
        let user' := { user with bmi := jsonValue bmi, bmiStatus := jsonValue status }
        let users' := users.set userIndex user'
        if printable email && printable bmi && printable status then
          (⟨200, .bmiSaved "BMI saved successfully" user'⟩, users')
        else
          (⟨500, .serverError⟩, users')
      | none => saveBmiNotFound users email
    | none => saveBmiNotFound users email

/-- Handler of `GET /users`. -/
def getUsers (users : List UserRecord) : Response × List UserRecord :=
  (⟨200, .users users⟩, users)

/-- A request to one of the routes that use the user collection, with its fields. -/
inductive Request where
  | signup (email password : JsValue)
  | login (email password : JsValue)
  | addMeal (email date totalCalories : JsValue)
  | saveBmi (email bmi status : JsValue)
  | userBmi (email : JsValue)
  | userMeals (email : JsValue)
  | users
  deriving DecidableEq, Repr

/-- The server handling one request against the stored collection. -/
def handle (users : List UserRecord) : Request → Response × List UserRecord
  | .signup email password => signup users email password
  | .login email password => login users email password
  | .addMeal email date totalCalories => addMeal users email date totalCalories
  | .saveBmi email bmi status => saveBmi users email bmi status
  | .userBmi email => userBmi users email
  | .userMeals email => userMeals users email
  | .users => getUsers users

/-- The stored collection after the requests are handled one after the other. -/
def run (users : List UserRecord) : List Request → List UserRecord
  | [] => users
  | request :: rest => run (handle users request).2 rest

/-- The value is a string. -/
def isString : JsValue → Bool
  | .string _ => true
  | _ => false

/-- The `email`, `password` and `date` fields of the request are strings; `bmi`, `status`
and `totalCalories` are left unconstrained. -/
def Request.stringValued : Request → Bool
  | .signup email password => isString email && isString password
  | .login email password => isString email && isString password
  | .addMeal email date _ => isString email && isString date
  | .saveBmi email _ _ => isString email
  | .userBmi email => isString email
  | .userMeals email => isString email
  | .users => true

/-- The requests paired with the responses the server gives them, handled one after the
other from the stored collection `users`. -/
def responses (users : List UserRecord) : List Request → List (Request × Response)
  | [] => []
  | request :: rest => (request, (handle users request).1) :: responses (handle users request).2 rest

/-- The routes whose handlers never call `saveUsers`. -/
def Request.isRead : Request → Bool
  | .login _ _ => true
  | .userBmi _ => true
  | .userMeals _ => true
  | .users => true
  | _ => false

/-- A request field that is absent (`undefined`) or a string. -/
def field : Option String → JsValue
  | none => .undefined
  | some s => .string s

/-- The state of `foods.json`: not there, there with content `JSON.parse` rejects, or
there with a parsed catalog. -/
inductive FoodsFile where
  | missing
  | unparsable
  | catalog (foods : List FoodItem)
  deriving DecidableEq, Repr

/-- The array `initialFoods` of `loadFoods`. -/
def initialFoods : List FoodItem :=
  [ ⟨1, "Apple", 95, 0.5, 25, 0.3⟩,
    ⟨2, "Egg", 70, 6, 1, 5⟩,
    ⟨3, "Chicken Breast (100g)", 165, 31, 0, 3.6⟩,
    ⟨4, "Rice (1 cup)", 200, 4, 45, 0.5⟩ ]

/-- The function `loadFoods`: writes `initialFoods` when the file does not exist, then
reads and parses the file; any error gives `[]`.  No route of `server.js` calls it. -/
def loadFoods : FoodsFile → List FoodItem × FoodsFile
  | .missing => (initialFoods, .catalog initialFoods)
  | .unparsable => ([], .unparsable)
  | .catalog foods => (foods, .catalog foods)

/-- Handler of `GET /foods`: `fs.readFile(FOODS_FILE, ...)` and `JSON.parse` of what was
read, with a 500 answer for a read error and for a parse error. -/
def getFoods : FoodsFile → Response × FoodsFile
  | .missing => (⟨500, .message "Error reading foods data"⟩, .missing)
  | .unparsable => (⟨500, .message "Error parsing foods data"⟩, .unparsable)
  | .catalog foods => (⟨200, .foods foods⟩, .catalog foods)

/-- I3 for one record, given the requests handled so far with their responses: the record
has `bmi = null` and `bmiStatus = ""`, or its `bmi` and `bmiStatus` are truthy and are the
`bmi` and `status` of a save-bmi request for its email that was answered 200. -/
def bmiPaired (log : List (Request × Response)) (user : UserRecord) : Prop :=
  (user.bmi = .null ∧ user.bmiStatus = .string "") ∨
  (truthy user.bmi = true ∧ truthy user.bmiStatus = true ∧
    ∃ response, (Request.saveBmi user.email user.bmi user.bmiStatus, response) ∈ log ∧
      response.status = 200)

/-- The file after two add-meal handlers whose `loadUsers()` calls both ran on the file
content `users` before either `saveUsers` ran, the second request being the one that
saves last.  Each handler works on its own copy of `users`, and `writeFileSync` replaces
the whole file: the file ends as the second handler wrote it, or as the first left it
when the second did not write (it writes exactly when it answers 200 or 500). -/
def addMealRace (users : List UserRecord) (first second : JsValue × JsValue × JsValue) :
    List UserRecord :=
  let afterFirst := (addMeal users first.1 first.2.1 first.2.2).2
  let secondRun := addMeal users second.1 second.2.1 second.2.2
  if secondRun.1.status = 200 ∨ secondRun.1.status = 500 then secondRun.2 else afterFirst

/-- The value is written unchanged by `JSON.stringify`: it is neither a non-finite number
nor `-0`. -/
def jsonExact (v : JsValue) : Bool :=
  jsonValue v == v

/-- For a save-bmi request: `bmi` and `status` are written unchanged by `JSON.stringify` and
the log line can print them.  Every other request qualifies. -/
def Request.bmiWritable : Request → Bool
  | .saveBmi _ bmi status => jsonExact bmi && jsonExact status && printable bmi && printable status
  | _ => true

/-- No stored email is the empty string, and no string is the email of two records. -/
def stringEmailsOnce (users : List UserRecord) : Prop :=
  JsValue.string "" ∉ users.map (·.email) ∧
  ∀ s : String, (users.map (·.email)).count (.string s) ≤ 1

/-- The record `user` at index `i` is the first record of `users` whose email is `email`. -/
def firstWithEmail (users : List UserRecord) (email : JsValue) (i : Nat) (user : UserRecord) :
    Prop :=
  users[i]? = some user ∧ strictEq user.email email = true ∧
  ∀ j, j < i → ∀ other, users[j]? = some other → strictEq other.email email = false

/-- The collection `result` has the records of `users`, in the same number and order,
except that the record at index `i` is `updated`. -/
def changesOnly (users result : List UserRecord) (i : Nat) (updated : UserRecord) : Prop :=
  result.length = users.length ∧ result[i]? = some updated ∧
  ∀ j, j ≠ i → result[j]? = users[j]?

/-- I1: no two records of the collection have the same email. -/
def emailsUnique (users : List UserRecord) : Prop :=
  (users.map (·.email)).Nodup

/-- I2: within each record's meals no two entries have the same date. -/
def mealDatesUnique (users : List UserRecord) : Prop :=
  ∀ user ∈ users, ((mealsOf user).map (·.date)).Nodup

/-! ## Auxiliary facts about `===`, `findIndex` and `set` -/

theorem strictEq_string_iff (v : JsValue) (s : String) :
    strictEq v (.string s) = true ↔ v = .string s := by
  cases v <;> simp [strictEq]

theorem strictEq_string_self (s : String) : strictEq (.string s) (.string s) = true :=
  (strictEq_string_iff _ _).2 rfl

theorem truthy_string_iff (s : String) : truthy (.string s) = true ↔ s ≠ "" := by
  simp [truthy]

theorem findIndex_eq_none_iff {α : Type} (p : α → Bool) (xs : List α) :
    findIndex p xs = none ↔ xs.find? p = none := by
  induction xs with
  | nil => simp [findIndex]
  | cons x xs ih =>
    by_cases hx : p x = true
    · simp [findIndex, List.find?, hx]
    · simp only [Bool.not_eq_true] at hx
      simp only [findIndex, List.find?, hx, Bool.false_eq_true, if_false, Option.map_eq_none']
      exact ih

theorem findIndex_eq_some {α : Type} (p : α → Bool) (xs : List α) (i : Nat)
    (h : findIndex p xs = some i) : ∃ x, xs[i]? = some x ∧ xs.find? p = some x := by
  induction xs generalizing i with
  | nil => simp [findIndex] at h
  | cons x xs ih =>
    by_cases hx : p x = true
    · simp only [findIndex, hx, if_true, Option.some.injEq] at h
      subst h
      exact ⟨x, by simp, by simp [List.find?, hx]⟩
    · simp only [Bool.not_eq_true] at hx
      simp only [findIndex, hx, Bool.false_eq_true, if_false, Option.map_eq_some'] at h
      obtain ⟨j, hj, rfl⟩ := h
      obtain ⟨y, hy, hf⟩ := ih j hj
      exact ⟨y, by simpa using hy, by simpa [List.find?, hx] using hf⟩

theorem findIndex_of_find {α : Type} (p : α → Bool) (xs : List α) (x : α)
    (h : xs.find? p = some x) : ∃ i, findIndex p xs = some i ∧ xs[i]? = some x := by
  cases hi : findIndex p xs with
  | none => rw [(findIndex_eq_none_iff p xs).1 hi] at h; cases h
  | some i =>
    obtain ⟨y, hy, hf⟩ := findIndex_eq_some p xs i hi
    rw [h] at hf
    cases hf
    exact ⟨i, rfl, hy⟩

theorem findIndex_set {α : Type} (p : α → Bool) (xs : List α) (i : Nat) (y : α)
    (h : findIndex p xs = some i) (hy : p y = true) :
    findIndex p (xs.set i y) = some i ∧ (xs.set i y).find? p = some y := by
  induction xs generalizing i with
  | nil => simp [findIndex] at h
  | cons x xs ih =>
    by_cases hx : p x = true
    · simp only [findIndex, hx, if_true, Option.some.injEq] at h
      subst h
      simp [findIndex, List.find?, hy]
    · simp only [Bool.not_eq_true] at hx
      simp only [findIndex, hx, Bool.false_eq_true, if_false, Option.map_eq_some'] at h
      obtain ⟨j, hj, rfl⟩ := h
      obtain ⟨h1, h2⟩ := ih j hj
      simp [findIndex, List.find?, hx, h1, h2]

theorem map_set_of_getElem? {α β : Type} (f : α → β) (xs : List α) (i : Nat) (x y : α)
    (hx : xs[i]? = some x) (hf : f y = f x) : (xs.set i y).map f = xs.map f := by
  induction xs generalizing i with
  | nil => simp
  | cons z zs ih =>
    cases i with
    | zero =>
      simp only [List.getElem?_cons_zero, Option.some.injEq] at hx
      subst hx
      simp [hf]
    | succ j =>
      simp only [List.getElem?_cons_succ] at hx
      simp [ih j hx]

theorem strictEq_undefined_iff (v : JsValue) : strictEq v .undefined = true ↔ v = .undefined := by
  cases v <;> simp [strictEq]

theorem strictEq_string_left (s : String) (v : JsValue) (h : strictEq (.string s) v = true) :
    v = .string s := by
  cases v <;> simp_all [strictEq]

theorem strictEq_eq (a b : JsValue) (h : strictEq a b = true) (hb : truthy b = true) :
    a = b := by
  cases a <;> cases b <;> simp_all [strictEq, truthy]

theorem strictEq_printable (a b : JsValue) (h : strictEq a b = true) : printable b = true := by
  cases a <;> cases b <;> simp_all [strictEq, printable]

theorem jsonValue_string (s : String) : jsonValue (.string s) = .string s := rfl

theorem jsonValue_eq_string (v : JsValue) (s : String) (h : jsonValue v = .string s) :
    v = .string s := by
  cases v <;> simp_all [jsonValue]

theorem jsonValue_idem (v : JsValue) : jsonValue (jsonValue v) = jsonValue v := by
  cases v <;> rfl

theorem printable_string (s : String) : printable (.string s) = true := rfl

theorem findIndex_pred {α : Type} (p : α → Bool) (xs : List α) (i : Nat) (x : α)
    (h : findIndex p xs = some i) (hx : xs[i]? = some x) : p x = true ∧ xs.find? p = some x := by
  obtain ⟨y, hy, hf⟩ := findIndex_eq_some p xs i h
  rw [hx] at hy
  cases hy
  exact ⟨List.find?_some hf, hf⟩

/-! ## Case analysis of the handlers that write -/

theorem signup_cases (users : List UserRecord) (email password : JsValue) :
    (signup users email password).1.status = 400 ∧ (signup users email password).2 = users ∨
    truthy email = true ∧ truthy password = true ∧
      users.any (fun user => strictEq user.email email) = false ∧
      signup users email password =
        (⟨201, .message "Signup successful. Redirecting to login..."⟩,
          users ++ [⟨jsonValue email, jsonValue password, .null, .string "", none⟩]) := by
  unfold signup
  split
  · exact Or.inl ⟨rfl, rfl⟩
  · rename_i hguard
    simp only [Bool.or_eq_true, Bool.not_eq_true', not_or, Bool.not_eq_false] at hguard
    split
    · exact Or.inl ⟨rfl, rfl⟩
    · rename_i hany
      simp only [Bool.not_eq_true] at hany
      exact Or.inr ⟨hguard.1, hguard.2, hany, rfl⟩

theorem addMeal_cases (users : List UserRecord) (email date totalCalories : JsValue) :
    ((addMeal users email date totalCalories).1.status = 400 ∨
        (addMeal users email date totalCalories).1.status = 404) ∧
      (addMeal users email date totalCalories).2 = users ∨
    ∃ userIndex user,
      truthy email = true ∧ truthy date = true ∧ strictEq totalCalories .undefined = false ∧
      findIndex (fun user => strictEq user.email email) users = some userIndex ∧
      users[userIndex]? = some user ∧
      (mealsOf user).find? (fun meal => strictEq meal.date date) = none ∧
      addMeal users email date totalCalories =
        (if printable email && printable date && printable totalCalories then
            ⟨200, .mealLogged "Meal logged successfully"
              (mealsOf user ++ [⟨jsonValue date, jsonValue totalCalories⟩])⟩
          else ⟨500, .serverError⟩,
          users.set userIndex
            { user with
              meals := some (mealsOf user ++ [⟨jsonValue date, jsonValue totalCalories⟩]) }) := by
  unfold addMeal
  split
  · left; exact ⟨Or.inl rfl, rfl⟩
  · rename_i hguard
    simp only [Bool.or_eq_true, Bool.not_eq_true', not_or, Bool.not_eq_false,
      Bool.not_eq_true] at hguard
    split
    · left; exact ⟨Or.inr rfl, rfl⟩
    · rename_i userIndex hidx
      split
      · left; exact ⟨Or.inr rfl, rfl⟩
      · rename_i user huser
        split
        · left; exact ⟨Or.inl rfl, rfl⟩
        · rename_i hnone
          right
          refine ⟨userIndex, user, hguard.1.1, hguard.1.2, hguard.2, hidx, huser, hnone, ?_⟩
          split <;> rfl

theorem saveBmiNotFound_cases (users : List UserRecord) (email : JsValue) :
    ((saveBmiNotFound users email).1.status = 400 ∨
      (saveBmiNotFound users email).1.status = 500) ∧
    (saveBmiNotFound users email).2 = users := by
  unfold saveBmiNotFound
  split
  · exact ⟨Or.inl rfl, rfl⟩
  · exact ⟨Or.inr rfl, rfl⟩

theorem saveBmi_cases (users : List UserRecord) (email bmi status : JsValue) :
    ((saveBmi users email bmi status).1.status = 400 ∨
        (saveBmi users email bmi status).1.status = 500) ∧
      (saveBmi users email bmi status).2 = users ∨
    ∃ userIndex user,
      truthy email = true ∧ truthy bmi = true ∧ truthy status = true ∧
      findIndex (fun user => strictEq user.email email) users = some userIndex ∧
      users[userIndex]? = some user ∧
      saveBmi users email bmi status =
        (if printable email && printable bmi && printable status then
            ⟨200, .bmiSaved "BMI saved successfully"
              { user with bmi := jsonValue bmi, bmiStatus := jsonValue status }⟩
          else ⟨500, .serverError⟩,
          users.set userIndex
            { user with bmi := jsonValue bmi, bmiStatus := jsonValue status }) := by
  have hnf := saveBmiNotFound_cases users email
  unfold saveBmi
  split
  · left; exact ⟨Or.inl rfl, rfl⟩
  · rename_i hguard
    simp only [Bool.or_eq_true, Bool.not_eq_true', not_or, Bool.not_eq_false] at hguard
    split
    · rename_i userIndex hidx
      split
      · rename_i user huser
        right
        refine ⟨userIndex, user, hguard.1.1, hguard.1.2, hguard.2, hidx, huser, ?_⟩
        split <;> rfl
      · left; exact hnf
    · left; exact hnf

/-! ## Effect of each handler on the stored emails -/

theorem addMeal_emails (users : List UserRecord) (email date totalCalories : JsValue) :
    (addMeal users email date totalCalories).2.map (·.email) = users.map (·.email) := by
  rcases addMeal_cases users email date totalCalories with ⟨_, hsame⟩ |
    ⟨i, user, _, _, _, _, huser, _, heq⟩
  · rw [hsame]
  · rw [heq]
    exact map_set_of_getElem? _ users i user _ huser rfl

theorem saveBmi_emails (users : List UserRecord) (email bmi status : JsValue) :
    (saveBmi users email bmi status).2.map (·.email) = users.map (·.email) := by
  rcases saveBmi_cases users email bmi status with ⟨_, hsame⟩ | ⟨i, user, _, _, _, _, huser, heq⟩
  · rw [hsame]
  · rw [heq]
    exact map_set_of_getElem? _ users i user _ huser rfl

theorem read_keeps_users (users : List UserRecord) (request : Request)
    (h : request.isRead = true) : (handle users request).2 = users := by
  cases request with
  | signup email password => simp [Request.isRead] at h
  | login email password => simp only [handle, login]; split <;> rfl
  | addMeal email date totalCalories => simp [Request.isRead] at h
  | saveBmi email bmi status => simp [Request.isRead] at h
  | userBmi email => simp only [handle, userBmi]; split <;> rfl
  | userMeals email => simp only [handle, userMeals]; split <;> rfl
  | users => rfl

theorem signup_emailsUnique (users : List UserRecord) (e : String) (password : JsValue)
    (h : emailsUnique users) : emailsUnique (signup users (.string e) password).2 := by
  rcases signup_cases users (.string e) password with ⟨_, hsame⟩ | ⟨_, _, hany, heq⟩
  · rw [hsame]; exact h
  · rw [heq]
    simp only [List.any_eq_false] at hany
    unfold emailsUnique at h ⊢
    rw [List.map_append, List.nodup_append]
    refine ⟨h, by simp, ?_⟩
    intro a ha hb
    simp only [List.map_cons, List.map_nil, List.mem_singleton, jsonValue_string] at hb
    subst hb
    obtain ⟨u, hu, hue⟩ := List.mem_map.1 ha
    have := hany u hu
    rw [(strictEq_string_iff _ _).2 hue] at this
    exact this rfl

theorem handle_emailsUnique (users : List UserRecord) (request : Request)
    (hs : request.stringValued = true) (h : emailsUnique users) :
    emailsUnique (handle users request).2 := by
  cases request with
  | signup email password =>
    cases email <;> simp [Request.stringValued, isString] at hs
    exact signup_emailsUnique users _ password h
  | login email password => rw [read_keeps_users users (.login email password) rfl]; exact h
  | addMeal email date totalCalories =>
    simp only [handle, emailsUnique, addMeal_emails]; exact h
  | saveBmi email bmi status =>
    simp only [handle, emailsUnique, saveBmi_emails]; exact h
  | userBmi email => rw [read_keeps_users users (.userBmi email) rfl]; exact h
  | userMeals email => rw [read_keeps_users users (.userMeals email) rfl]; exact h
  | users => exact h

theorem run_emailsUnique (requests : List Request) (users : List UserRecord)
    (hs : ∀ request ∈ requests, request.stringValued = true) (h : emailsUnique users) :
    emailsUnique (run users requests) := by
  induction requests generalizing users with
  | nil => exact h
  | cons request rest ih =>
    exact ih _ (fun r hr => hs r (List.mem_cons_of_mem _ hr))
      (handle_emailsUnique users request (hs request (List.mem_cons_self _ _)) h)

/-! ## Effect of each handler on the meal dates -/

theorem find_date_none (meals : List MealEntry) (d : String)
    (h : meals.find? (fun meal => strictEq meal.date (.string d)) = none) :
    JsValue.string d ∉ meals.map (·.date) := by
  intro hmem
  obtain ⟨m, hm, hd⟩ := List.mem_map.1 hmem
  have := List.find?_eq_none.1 h m hm
  simp only [(strictEq_string_iff _ _).2 hd, not_true_eq_false] at this

theorem mealDatesUnique_set (users : List UserRecord) (i : Nat) (user' : UserRecord)
    (h : mealDatesUnique users) (hnew : ((mealsOf user').map (·.date)).Nodup) :
    mealDatesUnique (users.set i user') := by
  intro u hu
  rcases List.mem_or_eq_of_mem_set hu with hmem | rfl
  · exact h u hmem
  · exact hnew

theorem handle_mealDatesUnique (users : List UserRecord) (request : Request)
    (hs : request.stringValued = true) (h : mealDatesUnique users) :
    mealDatesUnique (handle users request).2 := by
  cases request with
  | signup email password =>
    simp only [handle]
    rcases signup_cases users email password with ⟨_, hsame⟩ | ⟨_, _, _, heq⟩
    · rw [hsame]; exact h
    · rw [heq]
      intro u hu
      rcases List.mem_append.1 hu with hmem | hnew
      · exact h u hmem
      · simp only [List.mem_singleton] at hnew
        subst hnew
        simp [mealsOf]
  | login email password => rw [read_keeps_users users (.login email password) rfl]; exact h
  | addMeal email date totalCalories =>
    cases date <;> simp [Request.stringValued, isString] at hs
    rename_i d
    simp only [handle]
    rcases addMeal_cases users email (.string d) totalCalories with ⟨_, hsame⟩ |
      ⟨i, user, _, _, _, _, huser, hnone, heq⟩
    · rw [hsame]; exact h
    · rw [heq]
      refine mealDatesUnique_set users i _ h ?_
      have huser_mem : user ∈ users := List.getElem?_mem huser
      simp only [mealsOf, Option.getD_some, List.map_append, List.map_cons, List.map_nil,
        jsonValue_string]
      rw [List.nodup_append]
      refine ⟨h user huser_mem, by simp, ?_⟩
      intro a ha hb
      simp only [List.mem_singleton] at hb
      subst hb
      exact find_date_none _ d hnone ha
  | saveBmi email bmi status =>
    simp only [handle]
    rcases saveBmi_cases users email bmi status with ⟨_, hsame⟩ | ⟨i, user, _, _, _, _, huser, heq⟩
    · rw [hsame]; exact h
    · rw [heq]
      exact mealDatesUnique_set users i _ h (h user (List.getElem?_mem huser))
  | userBmi email => rw [read_keeps_users users (.userBmi email) rfl]; exact h
  | userMeals email => rw [read_keeps_users users (.userMeals email) rfl]; exact h
  | users => exact h

theorem run_mealDatesUnique (requests : List Request) (users : List UserRecord)
    (hs : ∀ request ∈ requests, request.stringValued = true) (h : mealDatesUnique users) :
    mealDatesUnique (run users requests) := by
  induction requests generalizing users with
  | nil => exact h
  | cons request rest ih =>
    exact ih _ (fun r hr => hs r (List.mem_cons_of_mem _ hr))
      (handle_mealDatesUnique users request (hs request (List.mem_cons_self _ _)) h)

/-! ## The record found for an email, before and after a mutation -/

theorem set_lookup (users : List UserRecord) (email : JsValue) (i : Nat)
    (user user' : UserRecord)
    (hidx : findIndex (fun user => strictEq user.email email) users = some i)
    (huser : users[i]? = some user) (hemail : user'.email = user.email) :
    findIndex (fun user => strictEq user.email email) (users.set i user') = some i ∧
    (users.set i user')[i]? = some user' ∧
    (users.set i user').find? (fun user => strictEq user.email email) = some user' := by
  have hp := (findIndex_pred _ users i user hidx huser).1
  have hp' : (fun user => strictEq user.email email) user' = true := by
    simpa only [hemail] using hp
  obtain ⟨h1, h2⟩ := findIndex_set _ users i user' hidx hp'
  obtain ⟨hlt, _⟩ := List.getElem?_eq_some.1 huser
  exact ⟨h1, List.getElem?_set_self hlt, h2⟩

theorem filter_date_none (meals : List MealEntry) (d : String)
    (h : meals.find? (fun meal => strictEq meal.date (.string d)) = none) :
    meals.filter (fun meal => decide (meal.date = .string d)) = [] := by
  rw [List.filter_eq_nil_iff]
  intro m hm hd
  have := List.find?_eq_none.1 h m hm
  simp only [decide_eq_true_eq] at hd
  simp only [(strictEq_string_iff _ _).2 hd, not_true_eq_false] at this

theorem find_email_none (users : List UserRecord) (e : String)
    (hno : ∀ user ∈ users, user.email ≠ .string e) (q : UserRecord → Bool) :
    users.find? (fun user => strictEq user.email (.string e) && q user) = none := by
  rw [List.find?_eq_none]
  intro u hu hp
  simp only [Bool.and_eq_true, strictEq_string_iff] at hp
  exact hno u hu hp.1

theorem find_email_none' (users : List UserRecord) (e : String)
    (hno : ∀ user ∈ users, user.email ≠ .string e) :
    users.find? (fun user => strictEq user.email (.string e)) = none := by
  rw [List.find?_eq_none]
  intro u hu hp
  exact hno u hu ((strictEq_string_iff _ _).1 hp)

theorem signup_new (users : List UserRecord) (e p : String)
    (hno : ∀ user ∈ users, user.email ≠ .string e) (he : e ≠ "") (hp : p ≠ "") :
    signup users (.string e) (.string p) =
      (⟨201, .message "Signup successful. Redirecting to login..."⟩,
        users ++ [⟨.string e, .string p, .null, .string "", none⟩]) := by
  have hany : users.any (fun user => strictEq user.email (.string e)) = false := by
    rw [List.any_eq_false]
    intro u hu hp
    exact hno u hu ((strictEq_string_iff _ _).1 hp)
  simp [signup, truthy, he, hp, hany, jsonValue]

/-! ## Claims -/

/-- C1: starting from the empty user collection, after any finite sequence of requests
whose email, password and date fields are strings, no two stored records have the
same email. -/
theorem email_unique_reachable (requests : List Request)
    (hs : ∀ request ∈ requests, request.stringValued = true) :
    emailsUnique (run [] requests) :=
  run_emailsUnique requests [] hs (by simp [emailsUnique])

theorem email_unique_reachable_witness :
    (∀ request ∈ [Request.signup (.string "a@x.com") (.string "p"),
        Request.signup (.string "a@x.com") (.string "q"),
        Request.signup (.string "b@x.com") (.string "p")], request.stringValued = true) ∧
    emailsUnique (run [] [Request.signup (.string "a@x.com") (.string "p"),
        Request.signup (.string "a@x.com") (.string "q"),
        Request.signup (.string "b@x.com") (.string "p")]) :=
  ⟨by decide, email_unique_reachable _ (by decide)⟩

/-- C2: a signup whose email is that of an existing record, with non-empty email and
password, is answered 400 "User already exists." and leaves the stored collection as it
was. -/
theorem signup_existing_email_rejected (users : List UserRecord) (e p : String)
    (hex : ∃ user ∈ users, user.email = .string e) (he : e ≠ "") (hp : p ≠ "") :
    signup users (.string e) (.string p) = (⟨400, .message "User already exists."⟩, users) := by
  obtain ⟨u, hu, hue⟩ := hex
  have hany : users.any (fun user => strictEq user.email (.string e)) = true :=
    List.any_eq_true.2 ⟨u, hu, (strictEq_string_iff _ _).2 hue⟩
  simp [signup, truthy, he, hp, hany]

theorem signup_existing_email_rejected_witness :
    signup [⟨.string "a@x.com", .string "p", .null, .string "", none⟩]
        (.string "a@x.com") (.string "other") =
      (⟨400, .message "User already exists."⟩,
        [⟨.string "a@x.com", .string "p", .null, .string "", none⟩]) :=
  signup_existing_email_rejected _ "a@x.com" "other" ⟨_, List.mem_singleton.2 rfl, rfl⟩
    (by decide) (by decide)

/-- C3: starting from the empty user collection, after any finite sequence of requests
whose email and date fields are strings, no record's meals hold two entries with the
same date. -/
theorem meal_dates_unique_reachable (requests : List Request)
    (hs : ∀ request ∈ requests, request.stringValued = true) :
    mealDatesUnique (run [] requests) :=
  run_mealDatesUnique requests [] hs (by intro u hu; cases hu)

theorem meal_dates_unique_reachable_witness :
    (∀ request ∈ [Request.signup (.string "a@x.com") (.string "p"),
        Request.addMeal (.string "a@x.com") (.string "2024-01-01") (.number 1800),
        Request.addMeal (.string "a@x.com") (.string "2024-01-01") (.number 2000),
        Request.addMeal (.string "a@x.com") (.string "2024-01-02") (.number 1500)],
      request.stringValued = true) ∧
    mealDatesUnique (run [] [Request.signup (.string "a@x.com") (.string "p"),
        Request.addMeal (.string "a@x.com") (.string "2024-01-01") (.number 1800),
        Request.addMeal (.string "a@x.com") (.string "2024-01-01") (.number 2000),
        Request.addMeal (.string "a@x.com") (.string "2024-01-02") (.number 1500)]) :=
  ⟨by decide, meal_dates_unique_reachable _ (by decide)⟩

/-- C5: login answers 200 exactly when some record has the request's email and the
request's password, and otherwise answers the one response 401 "Invalid email or
password.", whether the email is unknown or only the password is wrong. -/
theorem login_iff_credentials_match (users : List UserRecord) (e p : String) :
    ((login users (.string e) (.string p)).1.status = 200 ↔
      ∃ user ∈ users, user.email = .string e ∧ user.password = .string p) ∧
    ((login users (.string e) (.string p)).1 = ⟨200, .message "Login successful."⟩ ∨
      (login users (.string e) (.string p)).1 = ⟨401, .message "Invalid email or password."⟩) := by
  unfold login
  split
  · rename_i hnone
    refine ⟨⟨fun h => by simp at h, ?_⟩, Or.inr rfl⟩
    rintro ⟨u, hu, hue, hup⟩
    have := List.find?_eq_none.1 hnone u hu
    simp [(strictEq_string_iff _ _).2 hue, (strictEq_string_iff _ _).2 hup] at this
  · rename_i u hsome
    refine ⟨⟨fun _ => ?_, fun _ => rfl⟩, Or.inl rfl⟩
    have hp := List.find?_some hsome
    simp only [Bool.and_eq_true, strictEq_string_iff] at hp
    exact ⟨u, List.mem_of_find?_eq_some hsome, hp.1, hp.2⟩

/-- C6: when no record has email e and e, p are non-empty, signup(e, p) answers 201, after
which login(e, p) answers 200 and login(e, q) answers 401 for every q other than p. -/
theorem signup_then_login (users : List UserRecord) (e p : String) (q : JsValue)
    (hno : ∀ user ∈ users, user.email ≠ .string e) (he : e ≠ "") (hp : p ≠ "")
    (hq : q ≠ .string p) :
    (signup users (.string e) (.string p)).1.status = 201 ∧
    (login (signup users (.string e) (.string p)).2 (.string e) (.string p)).1.status = 200 ∧
    (login (signup users (.string e) (.string p)).2 (.string e) q).1.status = 401 := by
  rw [signup_new users e p hno he hp]
  refine ⟨rfl, ?_, ?_⟩
  · simp only [login, List.find?_append, find_email_none users e hno]
    simp [List.find?, strictEq_string_self]
  · have hpq : strictEq (.string p) q = false := by
      cases hs : strictEq (.string p) q
      · rfl
      · exact absurd (strictEq_string_left _ _ hs) hq
    simp only [login, List.find?_append, find_email_none users e hno]
    simp [List.find?, hpq]

theorem signup_then_login_witness :
    (signup [] (.string "a@x.com") (.string "p")).1.status = 201 ∧
    (login (signup [] (.string "a@x.com") (.string "p")).2
      (.string "a@x.com") (.string "p")).1.status = 200 ∧
    (login (signup [] (.string "a@x.com") (.string "p")).2
      (.string "a@x.com") (.string "wrong")).1.status = 401 :=
  signup_then_login [] "a@x.com" "p" (.string "wrong") (by simp) (by decide) (by decide)
    (by decide)

/-- C7: when no record has email e and e, p are non-empty, signup(e, p) answers 201 and
the stored collection becomes the old one followed by the single new record
{email: e, password: p, bmi: null, bmiStatus: ""} without meals; user-meals for e then
returns the empty sequence. -/
theorem signup_appends_record (users : List UserRecord) (e p : String)
    (hno : ∀ user ∈ users, user.email ≠ .string e) (he : e ≠ "") (hp : p ≠ "") :
    signup users (.string e) (.string p) =
      (⟨201, .message "Signup successful. Redirecting to login..."⟩,
        users ++ [⟨.string e, .string p, .null, .string "", none⟩]) ∧
    (userMeals (signup users (.string e) (.string p)).2 (.string e)).1 = ⟨200, .meals []⟩ := by
  rw [signup_new users e p hno he hp]
  refine ⟨rfl, ?_⟩
  simp only [userMeals, List.find?_append, find_email_none' users e hno]
  simp [List.find?, strictEq_string_self, mealsOf]

theorem signup_appends_record_witness :
    signup [⟨.string "b@x.com", .string "q", .number 22, .string "Normal", some []⟩]
        (.string "a@x.com") (.string "p") =
      (⟨201, .message "Signup successful. Redirecting to login..."⟩,
        [⟨.string "b@x.com", .string "q", .number 22, .string "Normal", some []⟩] ++
          [⟨.string "a@x.com", .string "p", .null, .string "", none⟩]) ∧
    (userMeals (signup [⟨.string "b@x.com", .string "q", .number 22, .string "Normal", some []⟩]
        (.string "a@x.com") (.string "p")).2 (.string "a@x.com")).1 = ⟨200, .meals []⟩ :=
  signup_appends_record _ "a@x.com" "p" (by decide) (by decide) (by decide)


/-! ## Successful writes -/

theorem addMeal_of_find (users : List UserRecord) (email date totalCalories : JsValue)
    (user : UserRecord)
    (hfind : users.find? (fun user => strictEq user.email email) = some user)
    (he : truthy email = true) (hd : truthy date = true)
    (hc : totalCalories ≠ .undefined)
    (hnone : (mealsOf user).find? (fun meal => strictEq meal.date date) = none)
    (hpd : printable date = true) (hpc : printable totalCalories = true) :
    (addMeal users email date totalCalories).1 =
      ⟨200, .mealLogged "Meal logged successfully"
        (mealsOf user ++ [⟨jsonValue date, jsonValue totalCalories⟩])⟩ ∧
    (userMeals (addMeal users email date totalCalories).2 email).1 =
      ⟨200, .meals (mealsOf user ++ [⟨jsonValue date, jsonValue totalCalories⟩])⟩ := by
  obtain ⟨i, hidx, huser⟩ := findIndex_of_find _ users user hfind
  have hc' : strictEq totalCalories .undefined = false := by
    cases hs : strictEq totalCalories .undefined
    · rfl
    · exact absurd ((strictEq_undefined_iff totalCalories).1 hs) hc
  have hmatch : strictEq user.email email = true :=
    (findIndex_pred _ users i user hidx huser).1
  have hpe : printable email = true := strictEq_printable user.email email hmatch
  have heq : addMeal users email date totalCalories =
      (⟨200, .mealLogged "Meal logged successfully"
          (mealsOf user ++ [⟨jsonValue date, jsonValue totalCalories⟩])⟩,
        users.set i
          { user with
            meals := some (mealsOf user ++ [⟨jsonValue date, jsonValue totalCalories⟩]) }) := by
    simp [addMeal, he, hd, hc', hidx, huser, hnone, hpe, hpd, hpc]
  obtain ⟨_, _, h3⟩ := set_lookup users email i user
    { user with meals := some (mealsOf user ++ [⟨jsonValue date, jsonValue totalCalories⟩]) }
    hidx huser rfl
  rw [heq]
  refine ⟨rfl, ?_⟩
  simp only [userMeals, h3]
  simp [mealsOf]

theorem status_ite_200 (c : Bool) (ok : Response)
    (h : (if c = true then ok else ⟨500, .serverError⟩ : Response).status = 200) :
    c = true := by
  cases c
  · simp at h
  · rfl

/-! ## String emails in the collections the server reaches -/

theorem count_le_one_find (users : List UserRecord) (e : String) (user : UserRecord)
    (hcount : (users.map (·.email)).count (.string e) ≤ 1)
    (hmem : user ∈ users) (hemail : user.email = .string e) :
    users.find? (fun user => strictEq user.email (.string e)) = some user := by
  induction users with
  | nil => cases hmem
  | cons x xs ih =>
    by_cases hx : x.email = .string e
    · have hxs : JsValue.string e ∉ xs.map (·.email) := by
        intro hin
        have hpos : 0 < (xs.map (·.email)).count (.string e) := List.count_pos_iff.2 hin
        simp only [List.map_cons, hx, List.count_cons_self] at hcount
        omega
      rcases List.mem_cons.1 hmem with rfl | hin
      · simp [List.find?, (strictEq_string_iff _ _).2 hx]
      · exact absurd (List.mem_map.2 ⟨user, hin, hemail⟩) hxs
    · have hne : strictEq x.email (.string e) = false := by
        cases hs : strictEq x.email (.string e)
        · rfl
        · exact absurd ((strictEq_string_iff _ _).1 hs) hx
      rcases List.mem_cons.1 hmem with rfl | hin
      · exact absurd hemail hx
      · have hcount' : (xs.map (·.email)).count (.string e) ≤ 1 := by
          simp only [List.map_cons] at hcount
          rw [List.count_cons_of_ne (fun h => hx h.symm)] at hcount
          exact hcount
        simp only [List.find?, hne]
        exact ih hcount' hin

theorem stringEmailsOnce_of_emails (users users' : List UserRecord)
    (h : users'.map (·.email) = users.map (·.email)) (hinv : stringEmailsOnce users) :
    stringEmailsOnce users' := by
  unfold stringEmailsOnce at hinv ⊢
  rw [h]
  exact hinv

theorem handle_stringEmailsOnce (users : List UserRecord) (request : Request)
    (h : stringEmailsOnce users) : stringEmailsOnce (handle users request).2 := by
  cases request with
  | signup email password =>
    simp only [handle]
    rcases signup_cases users email password with ⟨_, hsame⟩ | ⟨he, _, hany, heq⟩
    · rw [hsame]; exact h
    · rw [heq]
      simp only [List.any_eq_false] at hany
      have hnot : ∀ s, jsonValue email = .string s → JsValue.string s ∉ users.map (·.email) := by
        intro s hs hin
        obtain ⟨u, hu, hue⟩ := List.mem_map.1 hin
        have hes := jsonValue_eq_string email s hs
        have := hany u hu
        rw [hes, (strictEq_string_iff _ _).2 hue] at this
        exact this rfl
      refine ⟨?_, ?_⟩
      · intro hin
        simp only [List.map_append, List.map_cons, List.map_nil, List.mem_append,
          List.mem_singleton] at hin
        rcases hin with hin | hin
        · exact h.1 hin
        · have hes := jsonValue_eq_string email "" hin.symm
          rw [hes] at he
          simp [truthy] at he
      · intro s
        simp only [List.map_append, List.map_cons, List.map_nil, List.count_append]
        by_cases hs : jsonValue email = .string s
        · have hzero : (users.map (·.email)).count (.string s) = 0 :=
            List.count_eq_zero.2 (hnot s hs)
          simp [hzero, hs]
        · have hone : [jsonValue email].count (.string s) = 0 := by
            rw [List.count_eq_zero]
            simpa using fun h' => hs h'.symm
          rw [hone]
          exact h.2 s
  | login email password => rw [read_keeps_users users (.login email password) rfl]; exact h
  | addMeal email date totalCalories =>
    exact stringEmailsOnce_of_emails users _ (addMeal_emails users email date totalCalories) h
  | saveBmi email bmi status =>
    exact stringEmailsOnce_of_emails users _ (saveBmi_emails users email bmi status) h
  | userBmi email => rw [read_keeps_users users (.userBmi email) rfl]; exact h
  | userMeals email => rw [read_keeps_users users (.userMeals email) rfl]; exact h
  | users => exact h

theorem run_stringEmailsOnce (requests : List Request) (users : List UserRecord)
    (h : stringEmailsOnce users) : stringEmailsOnce (run users requests) := by
  induction requests generalizing users with
  | nil => exact h
  | cons request rest ih => exact ih _ (handle_stringEmailsOnce users request h)

theorem reachable_lookup (requests : List Request) (e : String) (user : UserRecord)
    (huser : user ∈ run [] requests) (hemail : user.email = .string e) :
    e ≠ "" ∧
    (run [] requests).find? (fun user => strictEq user.email (.string e)) = some user := by
  have hinv := run_stringEmailsOnce requests [] ⟨by simp, by simp⟩
  refine ⟨?_, count_le_one_find _ e user (hinv.2 e) huser hemail⟩
  intro he
  subst he
  exact hinv.1 (List.mem_map.2 ⟨user, huser, hemail⟩)


/-! ## Claims on the values a successful write stores -/

/-- C4, as stated, fails for a totalCalories that is not finite: add-meal with
totalCalories `Infinity` (the JSON literal 1e400) is answered 200, and the one entry
the user's meals then hold for the date has totalCalories null, not the value sent. -/
theorem addMeal_infinite_calories_stored_null :
    (addMeal [⟨.string "a@x.com", .string "p", .null, .string "", none⟩]
      (.string "a@x.com") (.string "2024-01-01") (.infinity false)).1.status = 200 ∧
    (userMeals (addMeal [⟨.string "a@x.com", .string "p", .null, .string "", none⟩]
        (.string "a@x.com") (.string "2024-01-01") (.infinity false)).2
      (.string "a@x.com")).1 = ⟨200, .meals [⟨.string "2024-01-01", .null⟩]⟩ ∧
    JsValue.null ≠ .infinity false := by
  decide

/-- C4 (amended): if add-meal(e, d, c1) succeeds, then an immediately following
add-meal(e, d, c2) with c2 defined is answered 400 as a duplicate date and leaves the
stored collection unchanged, and the meals of the user then hold exactly one entry with
date d, whose totalCalories is c1 as `JSON.stringify` writes it: c1 itself, except null
for a non-finite number and 0 for -0. -/
theorem addMeal_same_date_rejected (users : List UserRecord) (e d : String) (c1 c2 : JsValue)
    (hc2 : c2 ≠ .undefined)
    (hok : (addMeal users (.string e) (.string d) c1).1.status = 200) :
    addMeal (addMeal users (.string e) (.string d) c1).2 (.string e) (.string d) c2 =
      (⟨400, .message "You have already logged a meal for this date."⟩,
        (addMeal users (.string e) (.string d) c1).2) ∧
    ∃ meals,
      (userMeals (addMeal users (.string e) (.string d) c1).2 (.string e)).1 =
        ⟨200, .meals meals⟩ ∧
      meals.filter (fun meal => decide (meal.date = .string d)) =
        [⟨.string d, jsonValue c1⟩] := by
  rcases addMeal_cases users (.string e) (.string d) c1 with ⟨hfail, _⟩ |
    ⟨i, user, he, hd, _, hidx, huser, hnone, heq⟩
  · rcases hfail with h | h <;> rw [h] at hok <;> cases hok
  · have hstore : (addMeal users (.string e) (.string d) c1).2 =
        users.set i { user with meals := some (mealsOf user ++ [⟨.string d, jsonValue c1⟩]) } := by
      rw [heq]; rfl
    rw [hstore]
    obtain ⟨h1, h2, h3⟩ := set_lookup users (.string e) i user
      { user with meals := some (mealsOf user ++ [⟨.string d, jsonValue c1⟩]) } hidx huser rfl
    have hc2' : strictEq c2 .undefined = false := by
      cases hs : strictEq c2 .undefined
      · rfl
      · exact absurd ((strictEq_undefined_iff c2).1 hs) hc2
    refine ⟨?_, mealsOf user ++ [⟨.string d, jsonValue c1⟩], ?_, ?_⟩
    · simp only [addMeal, he, hd, hc2', h1, h2]
      have hfound :
          (mealsOf { user with meals := some (mealsOf user ++ [⟨.string d, jsonValue c1⟩]) }).find?
            (fun meal => strictEq meal.date (.string d)) = some ⟨.string d, jsonValue c1⟩ := by
        have hmeals :
            mealsOf { user with meals := some (mealsOf user ++ [⟨.string d, jsonValue c1⟩]) } =
              mealsOf user ++ [⟨.string d, jsonValue c1⟩] := rfl
        rw [hmeals, List.find?_append, hnone]
        simp [List.find?, strictEq_string_self]
      simp [hfound]
    · simp only [userMeals, h3]
      simp [mealsOf]
    · rw [List.filter_append, filter_date_none _ d hnone]
      simp

theorem addMeal_same_date_rejected_witness :
    (addMeal [⟨.string "a@x.com", .string "p", .null, .string "", none⟩]
        (.string "a@x.com") (.string "2024-01-01") (.number 1800)).1.status = 200 ∧
    (addMeal (addMeal [⟨.string "a@x.com", .string "p", .null, .string "", none⟩]
        (.string "a@x.com") (.string "2024-01-01") (.number 1800)).2
        (.string "a@x.com") (.string "2024-01-01") (.number 2000) =
      (⟨400, .message "You have already logged a meal for this date."⟩,
        (addMeal [⟨.string "a@x.com", .string "p", .null, .string "", none⟩]
          (.string "a@x.com") (.string "2024-01-01") (.number 1800)).2) ∧
    ∃ meals,
      (userMeals (addMeal [⟨.string "a@x.com", .string "p", .null, .string "", none⟩]
          (.string "a@x.com") (.string "2024-01-01") (.number 1800)).2
          (.string "a@x.com")).1 = ⟨200, .meals meals⟩ ∧
      meals.filter (fun meal => decide (meal.date = .string "2024-01-01")) =
        [⟨.string "2024-01-01", jsonValue (.number 1800)⟩]) :=
  ⟨by decide, addMeal_same_date_rejected _ "a@x.com" "2024-01-01" (.number 1800) (.number 2000)
    (by decide) (by decide)⟩

/-- C8, as stated, fails for two defined values of totalCalories, on the collection a
single signup produces.  For an object with an own property toString the meal is
written and the log line then throws, so the answer is 500 and not 200.  For `Infinity`
(the JSON literal 1e400) the answer is 200 but the returned entry has totalCalories
null, not the value sent. -/
theorem addMeal_defined_calories_not_returned :
    run [] [.signup (.string "a@x.com") (.string "p")] =
      [⟨.string "a@x.com", .string "p", .null, .string "", none⟩] ∧
    addMeal [⟨.string "a@x.com", .string "p", .null, .string "", none⟩]
        (.string "a@x.com") (.string "2024-01-01")
        (.composite "\x7b\"toString\":1\x7d" false) =
      (⟨500, .serverError⟩,
        [⟨.string "a@x.com", .string "p", .null, .string "",
          some [⟨.string "2024-01-01", .composite "\x7b\"toString\":1\x7d" false⟩]⟩]) ∧
    (addMeal [⟨.string "a@x.com", .string "p", .null, .string "", none⟩]
        (.string "a@x.com") (.string "2024-01-01") (.infinity false)).1 =
      ⟨200, .mealLogged "Meal logged successfully" [⟨.string "2024-01-01", .null⟩]⟩ := by
  decide

/-- C8 (amended): in every collection the server reaches from the empty one, for a record
with email e whose meals ms have no entry for date d, with d non-empty and c defined and
printable by the log line, add-meal(e, d, c) answers 200 with the meals ms followed by
{date: d, totalCalories: c as `JSON.stringify` writes it}, and a following user-meals(e)
returns that same sequence. -/
theorem addMeal_new_date_appends (requests : List Request) (e d : String) (c : JsValue)
    (user : UserRecord)
    (huser : user ∈ run [] requests) (hemail : user.email = .string e)
    (hnew : ∀ meal ∈ mealsOf user, meal.date ≠ .string d)
    (hd : d ≠ "") (hc : c ≠ .undefined) (hprint : printable c = true) :
    (addMeal (run [] requests) (.string e) (.string d) c).1 =
      ⟨200, .mealLogged "Meal logged successfully"
        (mealsOf user ++ [⟨.string d, jsonValue c⟩])⟩ ∧
    (userMeals (addMeal (run [] requests) (.string e) (.string d) c).2 (.string e)).1 =
      ⟨200, .meals (mealsOf user ++ [⟨.string d, jsonValue c⟩])⟩ := by
  obtain ⟨he, hfind⟩ := reachable_lookup requests e user huser hemail
  have hnone : (mealsOf user).find? (fun meal => strictEq meal.date (.string d)) = none := by
    rw [List.find?_eq_none]
    intro m hm hp
    exact hnew m hm ((strictEq_string_iff _ _).1 hp)
  exact addMeal_of_find (run [] requests) (.string e) (.string d) c user hfind
    ((truthy_string_iff e).2 he) ((truthy_string_iff d).2 hd) hc hnone rfl hprint

theorem addMeal_new_date_appends_witness :
    (⟨.string "a@x.com", .string "p", .null, .string "",
        some [⟨.string "2024-01-01", .number 1800⟩]⟩ : UserRecord) ∈
      run [] [.signup (.string "a@x.com") (.string "p"),
        .addMeal (.string "a@x.com") (.string "2024-01-01") (.number 1800)] ∧
    (addMeal (run [] [.signup (.string "a@x.com") (.string "p"),
          .addMeal (.string "a@x.com") (.string "2024-01-01") (.number 1800)])
        (.string "a@x.com") (.string "2024-01-02") (.number 0)).1 =
      ⟨200, .mealLogged "Meal logged successfully"
        (mealsOf ⟨.string "a@x.com", .string "p", .null, .string "",
          some [⟨.string "2024-01-01", .number 1800⟩]⟩ ++
          [⟨.string "2024-01-02", jsonValue (.number 0)⟩])⟩ ∧
    (userMeals (addMeal (run [] [.signup (.string "a@x.com") (.string "p"),
          .addMeal (.string "a@x.com") (.string "2024-01-01") (.number 1800)])
        (.string "a@x.com") (.string "2024-01-02") (.number 0)).2 (.string "a@x.com")).1 =
      ⟨200, .meals
        (mealsOf ⟨.string "a@x.com", .string "p", .null, .string "",
          some [⟨.string "2024-01-01", .number 1800⟩]⟩ ++
          [⟨.string "2024-01-02", jsonValue (.number 0)⟩])⟩ :=
  ⟨by decide, addMeal_new_date_appends _ "a@x.com" "2024-01-02" (.number 0)
    ⟨.string "a@x.com", .string "p", .null, .string "",
      some [⟨.string "2024-01-01", .number 1800⟩]⟩ (by decide) rfl (by decide) (by decide)
    (by decide) rfl⟩

/-- C9, as stated, fails for a bmi that is not finite: save-bmi with bmi `Infinity` (the
JSON literal 1e400) is answered 200, but the record it returns and the following
user-bmi carry bmi null, not the value sent. -/
theorem saveBmi_infinite_bmi_stored_null :
    saveBmi [⟨.string "a@x.com", .string "p", .null, .string "", none⟩]
        (.string "a@x.com") (.infinity false) (.string "Huge") =
      (⟨200, .bmiSaved "BMI saved successfully"
          ⟨.string "a@x.com", .string "p", .null, .string "Huge", none⟩⟩,
        [⟨.string "a@x.com", .string "p", .null, .string "Huge", none⟩]) ∧
    (userBmi (saveBmi [⟨.string "a@x.com", .string "p", .null, .string "", none⟩]
        (.string "a@x.com") (.infinity false) (.string "Huge")).2 (.string "a@x.com")).1 =
      ⟨200, .bmi .null (.string "Huge")⟩ ∧
    truthy (.infinity false) = true ∧ JsValue.null ≠ .infinity false := by
  decide

/-- C9 (amended): after save-bmi(e, b, s) succeeds, user-bmi(e) answers 200 with
{bmi: b, status: s} as `JSON.stringify` writes them, which is b and s themselves except
null for a non-finite number, and the record returned by save-bmi carries those same
values as bmi and bmiStatus.  (Success already says that a record for e exists and that
e, b and s are truthy.) -/
theorem saveBmi_then_userBmi (users : List UserRecord) (e b s : JsValue)
    (hok : (saveBmi users e b s).1.status = 200) :
    (userBmi (saveBmi users e b s).2 e).1 = ⟨200, .bmi (jsonValue b) (jsonValue s)⟩ ∧
    ∃ updatedUser,
      (saveBmi users e b s).1.body = .bmiSaved "BMI saved successfully" updatedUser ∧
      updatedUser.bmi = jsonValue b ∧ updatedUser.bmiStatus = jsonValue s := by
  rcases saveBmi_cases users e b s with ⟨hfail, _⟩ | ⟨i, user, _, _, _, hidx, huser, heq⟩
  · rcases hfail with h | h <;> rw [h] at hok <;> cases hok
  · obtain ⟨_, _, h3⟩ := set_lookup users e i user
      { user with bmi := jsonValue b, bmiStatus := jsonValue s } hidx huser rfl
    rw [heq] at hok ⊢
    have hprint := status_ite_200 _ _ hok
    simp only [hprint, if_true]
    refine ⟨?_, _, rfl, rfl, rfl⟩
    simp only [userBmi, h3]

theorem saveBmi_then_userBmi_witness :
    (saveBmi [⟨.string "a@x.com", .string "p", .null, .string "", none⟩]
      (.string "a@x.com") (.number 27.1) (.string "Overweight")).1.status = 200 ∧
    ((userBmi (saveBmi [⟨.string "a@x.com", .string "p", .null, .string "", none⟩]
        (.string "a@x.com") (.number 27.1) (.string "Overweight")).2 (.string "a@x.com")).1 =
      ⟨200, .bmi (jsonValue (.number 27.1)) (jsonValue (.string "Overweight"))⟩ ∧
    ∃ updatedUser,
      (saveBmi [⟨.string "a@x.com", .string "p", .null, .string "", none⟩]
        (.string "a@x.com") (.number 27.1) (.string "Overweight")).1.body =
        .bmiSaved "BMI saved successfully" updatedUser ∧
      updatedUser.bmi = jsonValue (.number 27.1) ∧
      updatedUser.bmiStatus = jsonValue (.string "Overweight")) :=
  have hok : (saveBmi [⟨.string "a@x.com", .string "p", .null, .string "", none⟩]
      (.string "a@x.com") (.number 27.1) (.string "Overweight")).1.status = 200 := by
    have he : ("a@x.com" : String) ≠ "" := by decide
    have hs : ("Overweight" : String) ≠ "" := by decide
    norm_num [saveBmi, truthy, findIndex, strictEq, printable, he, hs]
  ⟨hok, saveBmi_then_userBmi _ (.string "a@x.com") (.number 27.1) (.string "Overweight") hok⟩

/-- C10: save-bmi is idempotent: performing save-bmi(e, b, s) twice in sequence stores the
same collection as performing it once, the two responses are equal, and the number of
records is the same as before the first call. -/
theorem saveBmi_idempotent (users : List UserRecord) (e b s : JsValue) :
    (saveBmi (saveBmi users e b s).2 e b s).2 = (saveBmi users e b s).2 ∧
    (saveBmi (saveBmi users e b s).2 e b s).1 = (saveBmi users e b s).1 ∧
    (saveBmi users e b s).2.length = users.length := by
  rcases saveBmi_cases users e b s with ⟨_, hsame⟩ | ⟨i, user, he, hb, hs, hidx, huser, heq⟩
  · rw [hsame]
    exact ⟨hsame, rfl, rfl⟩
  · obtain ⟨h1, h2, _⟩ := set_lookup users e i user
      { user with bmi := jsonValue b, bmiStatus := jsonValue s } hidx huser rfl
    have heq2 : saveBmi (users.set i { user with bmi := jsonValue b, bmiStatus := jsonValue s })
        e b s =
        (if printable e && printable b && printable s then
            ⟨200, .bmiSaved "BMI saved successfully"
              { user with bmi := jsonValue b, bmiStatus := jsonValue s }⟩
          else ⟨500, .serverError⟩,
          users.set i { user with bmi := jsonValue b, bmiStatus := jsonValue s }) := by
      simp only [saveBmi, he, hb, hs, h1, h2]
      by_cases hp : (printable e && printable b && printable s) = true <;>
        simp [hp, List.set_set]
    rw [heq]
    exact ⟨by rw [heq2], by rw [heq2], by simp⟩


/-! ## The bmi fields along a run -/

theorem truthy_ne (v : JsValue) (h : truthy v = true) : v ≠ .null ∧ v ≠ .number 0 := by
  cases v <;> simp_all [truthy]

theorem jsonExact_eq (v : JsValue) (h : jsonExact v = true) : jsonValue v = v := by
  simpa [jsonExact] using h

theorem bmiPaired_append (log more : List (Request × Response)) (user : UserRecord)
    (h : bmiPaired log user) : bmiPaired (log ++ more) user := by
  rcases h with h | ⟨hb, hs, response, hmem, hok⟩
  · exact Or.inl h
  · exact Or.inr ⟨hb, hs, response, List.mem_append_left _ hmem, hok⟩

theorem bmiPaired_of_fields (log : List (Request × Response)) (user user' : UserRecord)
    (he : user'.email = user.email) (hb : user'.bmi = user.bmi)
    (hs : user'.bmiStatus = user.bmiStatus) (h : bmiPaired log user) : bmiPaired log user' := by
  unfold bmiPaired at h ⊢
  rw [he, hb, hs]
  exact h

theorem handle_record_cases (users : List UserRecord) (request : Request)
    (hw : request.bmiWritable = true) :
    ∀ user ∈ (handle users request).2,
      (∃ old ∈ users, user.email = old.email ∧ user.bmi = old.bmi ∧
        user.bmiStatus = old.bmiStatus) ∨
      (user.bmi = .null ∧ user.bmiStatus = .string "") ∨
      (request = .saveBmi user.email user.bmi user.bmiStatus ∧
        (handle users request).1.status = 200 ∧
        truthy user.bmi = true ∧ truthy user.bmiStatus = true) := by
  intro u hu
  have hkeep : ∀ v ∈ users, (∃ old ∈ users, v.email = old.email ∧ v.bmi = old.bmi ∧
      v.bmiStatus = old.bmiStatus) := fun v hv => ⟨v, hv, rfl, rfl, rfl⟩
  cases request with
  | signup email password =>
    simp only [handle] at hu
    rcases signup_cases users email password with ⟨_, hsame⟩ | ⟨_, _, _, hnew⟩
    · rw [hsame] at hu; exact Or.inl (hkeep u hu)
    · rw [hnew] at hu
      rcases List.mem_append.1 hu with hmem | hlast
      · exact Or.inl (hkeep u hmem)
      · simp only [List.mem_singleton] at hlast
        subst hlast
        exact Or.inr (Or.inl ⟨rfl, rfl⟩)
  | login email password =>
    rw [read_keeps_users users (.login email password) rfl] at hu; exact Or.inl (hkeep u hu)
  | addMeal email date totalCalories =>
    simp only [handle] at hu
    rcases addMeal_cases users email date totalCalories with ⟨_, hsame⟩ |
      ⟨i, user, _, _, _, _, huser, _, heq⟩
    · rw [hsame] at hu; exact Or.inl (hkeep u hu)
    · rw [heq] at hu
      rcases List.mem_or_eq_of_mem_set hu with hmem | rfl
      · exact Or.inl (hkeep u hmem)
      · exact Or.inl ⟨user, List.getElem?_mem huser, rfl, rfl, rfl⟩
  | saveBmi email bmi status =>
    simp only [handle] at hu ⊢
    simp only [Request.bmiWritable, Bool.and_eq_true] at hw
    obtain ⟨⟨⟨hxb, hxs⟩, hpb⟩, hps⟩ := hw
    rcases saveBmi_cases users email bmi status with ⟨_, hsame⟩ |
      ⟨i, user, he, hb, hs, hidx, huser, heq⟩
    · rw [hsame] at hu; exact Or.inl (hkeep u hu)
    · rw [heq] at hu
      rcases List.mem_or_eq_of_mem_set hu with hmem | rfl
      · exact Or.inl (hkeep u hmem)
      · have hmatch : strictEq user.email email = true :=
          (findIndex_pred _ users i user hidx huser).1
        have hemail : user.email = email := strictEq_eq _ _ hmatch he
        have hpe : printable email = true := strictEq_printable _ _ hmatch
        refine Or.inr (Or.inr ⟨?_, ?_, ?_, ?_⟩)
        · simp [hemail, jsonExact_eq _ hxb, jsonExact_eq _ hxs]
        · rw [heq]
          simp [hpe, hpb, hps]
        · simpa [jsonExact_eq _ hxb] using hb
        · simpa [jsonExact_eq _ hxs] using hs
  | userBmi email =>
    rw [read_keeps_users users (.userBmi email) rfl] at hu; exact Or.inl (hkeep u hu)
  | userMeals email =>
    rw [read_keeps_users users (.userMeals email) rfl] at hu; exact Or.inl (hkeep u hu)
  | users => exact Or.inl (hkeep u hu)

theorem handle_bmiPaired (users : List UserRecord) (log : List (Request × Response))
    (request : Request) (hw : request.bmiWritable = true)
    (h : ∀ user ∈ users, bmiPaired log user) :
    ∀ user ∈ (handle users request).2,
      bmiPaired (log ++ [(request, (handle users request).1)]) user := by
  intro u hu
  rcases handle_record_cases users request hw u hu with ⟨old, hold, he, hb, hs⟩ | hunset |
    ⟨hreq, hok, hb, hs⟩
  · exact bmiPaired_of_fields _ old u he hb hs (bmiPaired_append _ _ old (h old hold))
  · exact Or.inl hunset
  · refine Or.inr ⟨hb, hs, (handle users request).1, ?_, hok⟩
    rw [← hreq]
    simp

theorem run_bmiPaired (requests : List Request) (users : List UserRecord)
    (log : List (Request × Response))
    (hw : ∀ request ∈ requests, request.bmiWritable = true)
    (h : ∀ user ∈ users, bmiPaired log user) :
    ∀ user ∈ run users requests, bmiPaired (log ++ responses users requests) user := by
  induction requests generalizing users log with
  | nil => simpa [run, responses] using h
  | cons request rest ih =>
    have := ih (handle users request).2 (log ++ [(request, (handle users request).1)])
      (fun r hr => hw r (List.mem_cons_of_mem _ hr))
      (handle_bmiPaired users log request (hw request (List.mem_cons_self _ _)) h)
    simpa [run, responses, List.append_assoc] using this

/-! ## Claims on the bmi fields and on unknown emails -/

/-- C11, as stated, fails on two runs of a signup followed by a save-bmi that is answered
200.  With status 1 the stored record has bmi 22 and bmiStatus 1, which is not a string.
With bmi `Infinity` (the JSON literal 1e400) and status "Huge" the stored record has bmi
null and bmiStatus "Huge", so one field is unset and the other set. -/
theorem bmi_pairing_broken_reachable :
    run [] [.signup (.string "a@x.com") (.string "p"),
        .saveBmi (.string "a@x.com") (.number 22) (.number 1)] =
      [⟨.string "a@x.com", .string "p", .number 22, .number 1, none⟩] ∧
    (saveBmi [⟨.string "a@x.com", .string "p", .null, .string "", none⟩]
      (.string "a@x.com") (.number 22) (.number 1)).1.status = 200 ∧
    isString (.number 1) = false ∧
    run [] [.signup (.string "a@x.com") (.string "p"),
        .saveBmi (.string "a@x.com") (.infinity false) (.string "Huge")] =
      [⟨.string "a@x.com", .string "p", .null, .string "Huge", none⟩] ∧
    (saveBmi [⟨.string "a@x.com", .string "p", .null, .string "", none⟩]
      (.string "a@x.com") (.infinity false) (.string "Huge")).1.status = 200 ∧
    JsValue.string "Huge" ≠ .string "" := by
  decide

/-- C11 (amended): starting from the empty user collection, after any finite sequence of
requests whose save-bmi requests carry a bmi and a status that `JSON.stringify` writes
unchanged and that the log line can print, every stored record has either bmi = null and
bmiStatus = "", or a truthy bmi (so neither null nor zero) and a truthy bmiStatus (so
non-empty when it is a string) that are the bmi and status of a save-bmi request for that
record's email which was answered 200. -/
theorem bmi_pairing_reachable (requests : List Request) (user : UserRecord)
    (hw : ∀ request ∈ requests, request.bmiWritable = true)
    (huser : user ∈ run [] requests) :
    (user.bmi = .null ∧ user.bmiStatus = .string "") ∨
    (truthy user.bmi = true ∧ truthy user.bmiStatus = true ∧
      user.bmi ≠ .null ∧ user.bmi ≠ .number 0 ∧
      (∀ s, user.bmiStatus = .string s → s ≠ "") ∧
      ∃ response,
        (Request.saveBmi user.email user.bmi user.bmiStatus, response) ∈
          responses [] requests ∧
        response.status = 200) := by
  have h := run_bmiPaired requests [] [] hw (by intro u hu; cases hu) user huser
  rcases h with h | ⟨hb, hs, hlog⟩
  · exact Or.inl h
  · refine Or.inr ⟨hb, hs, (truthy_ne _ hb).1, (truthy_ne _ hb).2, ?_, by simpa using hlog⟩
    intro s hstr hempty
    rw [hstr, hempty] at hs
    simp [truthy] at hs

theorem bmi_pairing_reachable_witness :
    (∀ request ∈ [Request.signup (.string "a@x.com") (.string "p"),
        Request.saveBmi (.string "a@x.com") (.number 22) (.string "Normal")],
      request.bmiWritable = true) ∧
    (⟨.string "a@x.com", .string "p", .number 22, .string "Normal", none⟩ : UserRecord) ∈
      run [] [.signup (.string "a@x.com") (.string "p"),
        .saveBmi (.string "a@x.com") (.number 22) (.string "Normal")] ∧
    ((JsValue.number 22 = .null ∧ JsValue.string "Normal" = .string "") ∨
    (truthy (.number 22) = true ∧ truthy (.string "Normal") = true ∧
      JsValue.number 22 ≠ .null ∧ JsValue.number 22 ≠ .number 0 ∧
      (∀ s, JsValue.string "Normal" = .string s → s ≠ "") ∧
      ∃ response,
        (Request.saveBmi (.string "a@x.com") (.number 22) (.string "Normal"), response) ∈
          responses [] [.signup (.string "a@x.com") (.string "p"),
            .saveBmi (.string "a@x.com") (.number 22) (.string "Normal")] ∧
        response.status = 200)) :=
  ⟨by decide, by decide, bmi_pairing_reachable _
    ⟨.string "a@x.com", .string "p", .number 22, .string "Normal", none⟩ (by decide)
    (by decide)⟩


/-- C12: a save-bmi request whose email, bmi or status is absent or falsy (bmi = 0 and
status = "" among them) is answered 400 "Missing email, bmi, or status" and leaves the
stored collection unchanged, whatever the collection holds. -/
theorem saveBmi_falsy_field_rejected (users : List UserRecord) (e b s : JsValue)
    (h : truthy e = false ∨ truthy b = false ∨ truthy s = false) :
    saveBmi users e b s = (⟨400, .message "Missing email, bmi, or status"⟩, users) := by
  unfold saveBmi
  rcases h with h | h | h <;> simp [h]

theorem saveBmi_falsy_field_rejected_witness :
    saveBmi [⟨.string "a@x.com", .string "p", .null, .string "", none⟩]
        (.string "a@x.com") (.number 0) (.string "Normal") =
      (⟨400, .message "Missing email, bmi, or status"⟩,
        [⟨.string "a@x.com", .string "p", .null, .string "", none⟩]) :=
  saveBmi_falsy_field_rejected _ (.string "a@x.com") (.number 0) (.string "Normal")
    (Or.inr (Or.inl (by decide)))

/-- C13: for an email that matches no record, user-bmi and user-meals answer 404, and when
the email is non-empty add-meal with all fields present answers 404 and save-bmi with all
three fields truthy answers 400; each of them leaves the stored collection as it was, so
none adds a record. -/
theorem unknown_email_not_found (users : List UserRecord) (e : String) (d c b s : JsValue)
    (hno : ∀ user ∈ users, user.email ≠ .string e)
    (hd : truthy d = true) (hc : c ≠ .undefined) (hb : truthy b = true)
    (hs : truthy s = true) :
    userBmi users (.string e) = (⟨404, .message "User not found"⟩, users) ∧
    userMeals users (.string e) = (⟨404, .message "User not found"⟩, users) ∧
    (e ≠ "" →
      addMeal users (.string e) d c = (⟨404, .message "User not found."⟩, users) ∧
      saveBmi users (.string e) b s = (⟨400, .message "User not found"⟩, users)) := by
  have hfind := find_email_none' users e hno
  have hidx := (findIndex_eq_none_iff _ users).2 hfind
  have hc' : strictEq c .undefined = false := by
    cases hcs : strictEq c .undefined
    · rfl
    · exact absurd ((strictEq_undefined_iff c).1 hcs) hc
  refine ⟨?_, ?_, fun he => ?_⟩
  · simp only [userBmi, hfind]
  · simp only [userMeals, hfind]
  · have he' : truthy (.string e) = true := (truthy_string_iff e).2 he
    exact ⟨by simp [addMeal, he', hd, hc', hidx], by simp [saveBmi, saveBmiNotFound, printable, he', hb, hs, hidx]⟩

theorem unknown_email_not_found_witness :
    userBmi [⟨.string "a@x.com", .string "p", .null, .string "", none⟩]
        (.string "nobody@x.com") =
      (⟨404, .message "User not found"⟩,
        [⟨.string "a@x.com", .string "p", .null, .string "", none⟩]) ∧
    userMeals [⟨.string "a@x.com", .string "p", .null, .string "", none⟩]
        (.string "nobody@x.com") =
      (⟨404, .message "User not found"⟩,
        [⟨.string "a@x.com", .string "p", .null, .string "", none⟩]) ∧
    addMeal [⟨.string "a@x.com", .string "p", .null, .string "", none⟩]
        (.string "nobody@x.com") (.string "2024-01-01") (.number 1800) =
      (⟨404, .message "User not found."⟩,
        [⟨.string "a@x.com", .string "p", .null, .string "", none⟩]) ∧
    saveBmi [⟨.string "a@x.com", .string "p", .null, .string "", none⟩]
        (.string "nobody@x.com") (.number 27) (.string "Overweight") =
      (⟨400, .message "User not found"⟩,
        [⟨.string "a@x.com", .string "p", .null, .string "", none⟩]) :=
  have h := unknown_email_not_found [⟨.string "a@x.com", .string "p", .null, .string "", none⟩]
    "nobody@x.com" (.string "2024-01-01") (.number 1800) (.number 27) (.string "Overweight")
    (by decide) (by decide) (by decide) (by decide) (by decide)
  ⟨h.1, h.2.1, (h.2.2 (by decide)).1, (h.2.2 (by decide)).2⟩

/-- C14: with no foods.json, GET /foods answers 500 "Error reading foods data" and leaves
the catalog missing.  The seeding of the four items with ids 1, 2, 3, 4 is what
`loadFoods` does, and the handler does not call it. -/
theorem getFoods_missing_not_seeded :
    getFoods .missing = (⟨500, .message "Error reading foods data"⟩, .missing) ∧
    loadFoods .missing = (initialFoods, .catalog initialFoods) ∧
    initialFoods.map (·.id) = [1, 2, 3, 4] ∧
    initialFoods.map (·.name) = ["Apple", "Egg", "Chicken Breast (100g)", "Rice (1 cup)"] :=
  ⟨rfl, rfl, rfl, rfl⟩

/-! ## Field validation, frame and failure paths of the writes -/

theorem findIndex_first {α : Type} (p : α → Bool) (xs : List α) (i : Nat)
    (h : findIndex p xs = some i) :
    ∀ j, j < i → ∀ x, xs[j]? = some x → p x = false := by
  induction xs generalizing i with
  | nil => simp [findIndex] at h
  | cons y ys ih =>
    by_cases hy : p y = true
    · simp only [findIndex, hy, if_true, Option.some.injEq] at h
      subst h
      intro j hj
      exact absurd hj (Nat.not_lt_zero j)
    · simp only [Bool.not_eq_true] at hy
      simp only [findIndex, hy, Bool.false_eq_true, if_false, Option.map_eq_some'] at h
      obtain ⟨k, hk, rfl⟩ := h
      intro j hj x hx
      cases j with
      | zero =>
        simp only [List.getElem?_cons_zero, Option.some.injEq] at hx
        subst hx
        exact hy
      | succ j =>
        simp only [List.getElem?_cons_succ] at hx
        exact ih k hk j (by omega) x hx

theorem findIndex_firstWithEmail (users : List UserRecord) (email : JsValue) (i : Nat)
    (user : UserRecord)
    (hidx : findIndex (fun user => strictEq user.email email) users = some i)
    (huser : users[i]? = some user) : firstWithEmail users email i user :=
  ⟨huser, (findIndex_pred _ users i user hidx huser).1,
    fun j hj other hother => findIndex_first _ users i hidx j hj other hother⟩

theorem changesOnly_set (users : List UserRecord) (i : Nat) (user updated : UserRecord)
    (huser : users[i]? = some user) : changesOnly users (users.set i updated) i updated := by
  obtain ⟨hlt, _⟩ := List.getElem?_eq_some.1 huser
  refine ⟨List.length_set _ _ _, List.getElem?_set_self hlt, ?_⟩
  intro j hj
  exact List.getElem?_set_ne (Ne.symm hj)

theorem addMeal_required_iff (users : List UserRecord) (email date totalCalories : JsValue) :
    (addMeal users email date totalCalories).1 = ⟨400, .message "All fields are required."⟩ ↔
      (truthy email = false ∨ truthy date = false ∨ totalCalories = .undefined) := by
  unfold addMeal
  split
  · rename_i hguard
    simp only [Bool.or_eq_true, Bool.not_eq_true', strictEq_undefined_iff] at hguard
    simp only [true_iff]
    rcases hguard with (h | h) | h
    · exact Or.inl h
    · exact Or.inr (Or.inl h)
    · exact Or.inr (Or.inr h)
  · rename_i hguard
    simp only [Bool.or_eq_true, Bool.not_eq_true', strictEq_undefined_iff, not_or] at hguard
    have hrhs : ¬ (truthy email = false ∨ truthy date = false ∨ totalCalories = .undefined) := by
      rintro (h | h | h)
      · exact hguard.1.1 h
      · exact hguard.1.2 h
      · exact hguard.2 h
    split
    · simp [hrhs]
    · split
      · simp [hrhs]
      · split
        · simp [hrhs]
        · split <;> simp [hrhs]

theorem truthy_field_eq_false (value : Option String) :
    truthy (field value) = false ↔ (value = none ∨ value = some "") := by
  cases value with
  | none => simp [field, truthy]
  | some s => simp [field, truthy]

/-- C16: add-meal answers 400 "All fields are required." exactly when email is absent or
empty, or date is absent or empty, or totalCalories is undefined; and a request with
totalCalories = 0 for an existing user and a new date is answered 200 and stored as an
entry with totalCalories 0. -/
theorem addMeal_missing_field_iff (store : List UserRecord) (email date : Option String)
    (totalCalories : JsValue) (users : List UserRecord) (e d : String) (user : UserRecord)
    (hfind : users.find? (fun user => strictEq user.email (.string e)) = some user)
    (hnew : ∀ meal ∈ mealsOf user, meal.date ≠ .string d) (he : e ≠ "") (hd : d ≠ "") :
    ((addMeal store (field email) (field date) totalCalories).1 =
        ⟨400, .message "All fields are required."⟩ ↔
      (email = none ∨ email = some "" ∨ date = none ∨ date = some "" ∨
        totalCalories = .undefined)) ∧
    (addMeal users (.string e) (.string d) (.number 0)).1 =
      ⟨200, .mealLogged "Meal logged successfully"
        (mealsOf user ++ [⟨.string d, .number 0⟩])⟩ ∧
    (userMeals (addMeal users (.string e) (.string d) (.number 0)).2 (.string e)).1 =
      ⟨200, .meals (mealsOf user ++ [⟨.string d, .number 0⟩])⟩ := by
  refine ⟨?_, ?_⟩
  · rw [addMeal_required_iff, truthy_field_eq_false, truthy_field_eq_false]
    constructor
    · rintro (h | h | h)
      · rcases h with h | h
        · exact Or.inl h
        · exact Or.inr (Or.inl h)
      · rcases h with h | h
        · exact Or.inr (Or.inr (Or.inl h))
        · exact Or.inr (Or.inr (Or.inr (Or.inl h)))
      · exact Or.inr (Or.inr (Or.inr (Or.inr h)))
    · rintro (h | h | h | h | h)
      · exact Or.inl (Or.inl h)
      · exact Or.inl (Or.inr h)
      · exact Or.inr (Or.inl (Or.inl h))
      · exact Or.inr (Or.inl (Or.inr h))
      · exact Or.inr (Or.inr h)
  · have hnone : (mealsOf user).find? (fun meal => strictEq meal.date (.string d)) = none := by
      rw [List.find?_eq_none]
      intro m hm hp
      exact hnew m hm ((strictEq_string_iff _ _).1 hp)
    exact addMeal_of_find users (.string e) (.string d) (.number 0) user hfind
      ((truthy_string_iff e).2 he) ((truthy_string_iff d).2 hd) (by decide) hnone rfl rfl

theorem addMeal_missing_field_iff_witness :
    ((addMeal [] (field (some "a@x.com")) (field (some "")) (.number 1800)).1 =
        ⟨400, .message "All fields are required."⟩ ↔
      ((some "a@x.com" : Option String) = none ∨ (some "a@x.com" : Option String) = some "" ∨
        (some "" : Option String) = none ∨ (some "" : Option String) = some "" ∨
        JsValue.number 1800 = .undefined)) ∧
    (addMeal [⟨.string "a@x.com", .string "p", .null, .string "", none⟩]
        (.string "a@x.com") (.string "2024-01-01") (.number 0)).1 =
      ⟨200, .mealLogged "Meal logged successfully"
        (mealsOf ⟨.string "a@x.com", .string "p", .null, .string "", none⟩ ++
          [⟨.string "2024-01-01", .number 0⟩])⟩ ∧
    (userMeals (addMeal [⟨.string "a@x.com", .string "p", .null, .string "", none⟩]
        (.string "a@x.com") (.string "2024-01-01") (.number 0)).2 (.string "a@x.com")).1 =
      ⟨200, .meals
        (mealsOf ⟨.string "a@x.com", .string "p", .null, .string "", none⟩ ++
          [⟨.string "2024-01-01", .number 0⟩])⟩ :=
  addMeal_missing_field_iff [] (some "a@x.com") (some "") (.number 1800)
    [⟨.string "a@x.com", .string "p", .null, .string "", none⟩] "a@x.com" "2024-01-01"
    ⟨.string "a@x.com", .string "p", .null, .string "", none⟩ rfl
    (by intro meal hmeal; cases hmeal) (by decide) (by decide)

/-- C17: a successful save-bmi(e, b, s) and a successful add-meal(e, d, c) leave the number
and order of the records unchanged and change no record other than the first record whose
email is e; in that record email and password stay as they were, save-bmi also keeps its
meals, and add-meal also keeps its bmi and bmiStatus. -/
theorem mutation_frame (users : List UserRecord) (e b s : JsValue)
    (hsave : (saveBmi users e b s).1.status = 200)
    (store : List UserRecord) (email d c : JsValue)
    (hadd : (addMeal store email d c).1.status = 200) :
    (∃ i user updated,
      firstWithEmail users e i user ∧
      changesOnly users (saveBmi users e b s).2 i updated ∧
      updated.email = user.email ∧ updated.password = user.password ∧
      updated.meals = user.meals) ∧
    (∃ i user updated,
      firstWithEmail store email i user ∧
      changesOnly store (addMeal store email d c).2 i updated ∧
      updated.email = user.email ∧ updated.password = user.password ∧
      updated.bmi = user.bmi ∧ updated.bmiStatus = user.bmiStatus) := by
  constructor
  · rcases saveBmi_cases users e b s with ⟨hfail, _⟩ | ⟨i, user, _, _, _, hidx, huser, heq⟩
    · rcases hfail with h | h <;> rw [h] at hsave <;> cases hsave
    · refine ⟨i, user, { user with bmi := jsonValue b, bmiStatus := jsonValue s },
        findIndex_firstWithEmail users e i user hidx huser, ?_, rfl, rfl, rfl⟩
      rw [heq]
      exact changesOnly_set users i user _ huser
  · rcases addMeal_cases store email d c with ⟨hfail, _⟩ |
      ⟨i, user, _, _, _, hidx, huser, _, heq⟩
    · rcases hfail with h | h <;> rw [h] at hadd <;> cases hadd
    · refine ⟨i, user, { user with meals := some (mealsOf user ++ [⟨jsonValue d, jsonValue c⟩]) },
        findIndex_firstWithEmail store email i user hidx huser, ?_, rfl, rfl, rfl, rfl⟩
      rw [heq]
      exact changesOnly_set store i user _ huser

theorem mutation_frame_witness :
    (saveBmi [⟨.string "b@x.com", .string "q", .null, .string "", none⟩,
        ⟨.string "a@x.com", .string "p", .null, .string "", none⟩]
      (.string "a@x.com") (.number 27) (.string "Overweight")).1.status = 200 ∧
    (addMeal [⟨.string "b@x.com", .string "q", .null, .string "", none⟩,
        ⟨.string "a@x.com", .string "p", .number 27, .string "Overweight", none⟩]
      (.string "a@x.com") (.string "2024-01-01") (.number 1800)).1.status = 200 ∧
    ((∃ i user updated,
      firstWithEmail [⟨.string "b@x.com", .string "q", .null, .string "", none⟩,
        ⟨.string "a@x.com", .string "p", .null, .string "", none⟩] (.string "a@x.com") i user ∧
      changesOnly [⟨.string "b@x.com", .string "q", .null, .string "", none⟩,
          ⟨.string "a@x.com", .string "p", .null, .string "", none⟩]
        (saveBmi [⟨.string "b@x.com", .string "q", .null, .string "", none⟩,
            ⟨.string "a@x.com", .string "p", .null, .string "", none⟩]
          (.string "a@x.com") (.number 27) (.string "Overweight")).2 i updated ∧
      updated.email = user.email ∧ updated.password = user.password ∧
      updated.meals = user.meals) ∧
    (∃ i user updated,
      firstWithEmail [⟨.string "b@x.com", .string "q", .null, .string "", none⟩,
        ⟨.string "a@x.com", .string "p", .number 27, .string "Overweight", none⟩]
        (.string "a@x.com") i user ∧
      changesOnly [⟨.string "b@x.com", .string "q", .null, .string "", none⟩,
          ⟨.string "a@x.com", .string "p", .number 27, .string "Overweight", none⟩]
        (addMeal [⟨.string "b@x.com", .string "q", .null, .string "", none⟩,
            ⟨.string "a@x.com", .string "p", .number 27, .string "Overweight", none⟩]
          (.string "a@x.com") (.string "2024-01-01") (.number 1800)).2 i updated ∧
      updated.email = user.email ∧ updated.password = user.password ∧
      updated.bmi = user.bmi ∧ updated.bmiStatus = user.bmiStatus)) :=
  ⟨by decide, by decide, mutation_frame _ (.string "a@x.com") (.number 27)
    (.string "Overweight") (by decide) _ (.string "a@x.com") (.string "2024-01-01")
    (.number 1800) (by decide)⟩


/-! ## Two writers on one snapshot, and the answers given after a write -/

theorem find_set_other {α : Type} (p : α → Bool) (xs : List α) (i : Nat) (x y : α)
    (hx : xs[i]? = some x) (hpx : p x = false) (hpy : p y = false) :
    (xs.set i y).find? p = xs.find? p := by
  induction xs generalizing i with
  | nil => simp
  | cons z zs ih =>
    cases i with
    | zero =>
      simp only [List.getElem?_cons_zero, Option.some.injEq] at hx
      subst hx
      simp [List.find?, hpx, hpy]
    | succ j =>
      simp only [List.getElem?_cons_succ] at hx
      simp only [List.set_cons_succ, List.find?, ih j hx]

theorem strictEq_string_ne (a b : String) (h : a ≠ b) :
    strictEq (.string a) (.string b) = false := by
  simp [strictEq, h]

/-- C15: lost update under a race.  When two add-meal calls for different emails e1 and e2
both load the collection before either saves, and both succeed, the first writer saves its
new entry, and the collection stored after the second writer has saved holds the second
writer's new entry for e2, while the meals of e1 are the ones from before the race, with no
entry for the first writer's date. -/
theorem addMeal_race_lost_update (users : List UserRecord) (e1 e2 d1 d2 : String)
    (c1 c2 : JsValue) (hne : e1 ≠ e2)
    (h1 : (addMeal users (.string e1) (.string d1) c1).1.status = 200)
    (h2 : (addMeal users (.string e2) (.string d2) c2).1.status = 200) :
    (∃ meals,
      (userMeals (addMeal users (.string e1) (.string d1) c1).2 (.string e1)).1 =
        ⟨200, .meals meals⟩ ∧
      ⟨.string d1, jsonValue c1⟩ ∈ meals) ∧
    (∃ meals,
      (userMeals (addMealRace users (.string e1, .string d1, c1) (.string e2, .string d2, c2))
        (.string e2)).1 = ⟨200, .meals meals⟩ ∧
      ⟨.string d2, jsonValue c2⟩ ∈ meals) ∧
    (userMeals (addMealRace users (.string e1, .string d1, c1) (.string e2, .string d2, c2))
      (.string e1)).1 = (userMeals users (.string e1)).1 ∧
    (∃ meals,
      (userMeals (addMealRace users (.string e1, .string d1, c1) (.string e2, .string d2, c2))
        (.string e1)).1 = ⟨200, .meals meals⟩ ∧
      ∀ meal ∈ meals, meal.date ≠ .string d1) := by
  have hrace : addMealRace users (.string e1, .string d1, c1) (.string e2, .string d2, c2) =
      (addMeal users (.string e2) (.string d2) c2).2 := by
    simp [addMealRace, h2]
  rw [hrace]
  rcases addMeal_cases users (.string e1) (.string d1) c1 with ⟨hfail, _⟩ |
    ⟨i1, user1, _, _, _, hidx1, huser1, hnone1, heq1⟩
  · rcases hfail with h | h <;> rw [h] at h1 <;> cases h1
  rcases addMeal_cases users (.string e2) (.string d2) c2 with ⟨hfail, _⟩ |
    ⟨i2, user2, _, _, _, hidx2, huser2, _, heq2⟩
  · rcases hfail with h | h <;> rw [h] at h2 <;> cases h2
  have hstore1 : (addMeal users (.string e1) (.string d1) c1).2 =
      users.set i1 { user1 with meals := some (mealsOf user1 ++ [⟨.string d1, jsonValue c1⟩]) } := by
    rw [heq1]; rfl
  have hstore2 : (addMeal users (.string e2) (.string d2) c2).2 =
      users.set i2 { user2 with meals := some (mealsOf user2 ++ [⟨.string d2, jsonValue c2⟩]) } := by
    rw [heq2]; rfl
  obtain ⟨_, _, hfind1'⟩ := set_lookup users (.string e1) i1 user1
    { user1 with meals := some (mealsOf user1 ++ [⟨.string d1, jsonValue c1⟩]) } hidx1 huser1 rfl
  obtain ⟨_, _, hfind2'⟩ := set_lookup users (.string e2) i2 user2
    { user2 with meals := some (mealsOf user2 ++ [⟨.string d2, jsonValue c2⟩]) } hidx2 huser2 rfl
  have hfind1 := (findIndex_pred _ users i1 user1 hidx1 huser1).2
  have hemail2 : user2.email = .string e2 :=
    (strictEq_string_iff _ _).1 (findIndex_pred _ users i2 user2 hidx2 huser2).1
  have hother : strictEq user2.email (.string e1) = false := by
    rw [hemail2]; exact strictEq_string_ne e2 e1 (fun h => hne h.symm)
  have hkeep : (users.set i2
      { user2 with meals := some (mealsOf user2 ++ [⟨.string d2, jsonValue c2⟩]) }).find?
        (fun user => strictEq user.email (.string e1)) =
      users.find? (fun user => strictEq user.email (.string e1)) :=
    find_set_other _ users i2 user2 _ huser2 hother hother
  refine ⟨⟨mealsOf user1 ++ [⟨.string d1, jsonValue c1⟩], ?_, by simp⟩,
    ⟨mealsOf user2 ++ [⟨.string d2, jsonValue c2⟩], ?_, by simp⟩, ?_,
    ⟨mealsOf user1, ?_, ?_⟩⟩
  · rw [hstore1]
    simp only [userMeals, hfind1']
    simp [mealsOf]
  · rw [hstore2]
    simp only [userMeals, hfind2']
    simp [mealsOf]
  · rw [hstore2]
    simp only [userMeals, hkeep]
    split <;> rfl
  · rw [hstore2]
    simp only [userMeals, hkeep, hfind1]
  · intro meal hmeal hdate
    have := List.find?_eq_none.1 hnone1 meal hmeal
    simp only [(strictEq_string_iff _ _).2 hdate, not_true_eq_false] at this

theorem addMeal_race_lost_update_witness :
    (addMeal [⟨.string "a@x.com", .string "p", .null, .string "", none⟩,
        ⟨.string "b@x.com", .string "q", .null, .string "", none⟩]
      (.string "a@x.com") (.string "2024-01-01") (.number 1800)).1.status = 200 ∧
    (addMeal [⟨.string "a@x.com", .string "p", .null, .string "", none⟩,
        ⟨.string "b@x.com", .string "q", .null, .string "", none⟩]
      (.string "b@x.com") (.string "2024-01-01") (.number 2000)).1.status = 200 ∧
    addMealRace [⟨.string "a@x.com", .string "p", .null, .string "", none⟩,
        ⟨.string "b@x.com", .string "q", .null, .string "", none⟩]
      (.string "a@x.com", .string "2024-01-01", .number 1800)
      (.string "b@x.com", .string "2024-01-01", .number 2000) =
      [⟨.string "a@x.com", .string "p", .null, .string "", none⟩,
        ⟨.string "b@x.com", .string "q", .null, .string "",
          some [⟨.string "2024-01-01", .number 2000⟩]⟩] ∧
    (∃ meals,
      (userMeals (addMealRace [⟨.string "a@x.com", .string "p", .null, .string "", none⟩,
          ⟨.string "b@x.com", .string "q", .null, .string "", none⟩]
        (.string "a@x.com", .string "2024-01-01", .number 1800)
        (.string "b@x.com", .string "2024-01-01", .number 2000)) (.string "a@x.com")).1 =
        ⟨200, .meals meals⟩ ∧
      ∀ meal ∈ meals, meal.date ≠ .string "2024-01-01") :=
  ⟨by decide, by decide, by decide,
    (addMeal_race_lost_update _ "a@x.com" "b@x.com" "2024-01-01" "2024-01-01" (.number 1800)
      (.number 2000) (by decide) (by decide) (by decide)).2.2.2⟩

theorem addMeal_no_meals_not_duplicate (users : List UserRecord) (email date c : JsValue)
    (user : UserRecord)
    (hfind : users.find? (fun user => strictEq user.email email) = some user)
    (hmeals : user.meals = none) :
    (addMeal users email date c).1 ≠
      ⟨400, .message "You have already logged a meal for this date."⟩ := by
  obtain ⟨i, hidx, huser⟩ := findIndex_of_find _ users user hfind
  unfold addMeal
  split
  · simp
  · simp only [hidx, huser, mealsOf, hmeals, Option.getD_none, List.find?_nil]
    split <;> simp

theorem read_or_rejection_keeps_users (users : List UserRecord) (request : Request)
    (h : request.isRead = true ∨
      (400 ≤ (handle users request).1.status ∧ (handle users request).1.status < 500)) :
    (handle users request).2 = users := by
  rcases h with hread | ⟨hlo, hhi⟩
  · exact read_keeps_users users request hread
  · cases request with
    | signup email password =>
      simp only [handle] at hlo ⊢
      rcases signup_cases users email password with ⟨_, hsame⟩ | ⟨_, _, _, heq⟩
      · exact hsame
      · rw [heq] at hlo; simp at hlo
    | login email password => exact read_keeps_users users _ rfl
    | addMeal email date totalCalories =>
      simp only [handle] at hlo hhi ⊢
      rcases addMeal_cases users email date totalCalories with ⟨_, hsame⟩ |
        ⟨_, _, _, _, _, _, _, _, heq⟩
      · exact hsame
      · rw [heq] at hlo hhi
        by_cases hp : (printable email && printable date && printable totalCalories) = true
        · simp [hp] at hlo
        · simp [hp] at hhi
    | saveBmi email bmi status =>
      simp only [handle] at hlo hhi ⊢
      rcases saveBmi_cases users email bmi status with ⟨_, hsame⟩ |
        ⟨_, _, _, _, _, _, _, heq⟩
      · exact hsame
      · rw [heq] at hlo hhi
        by_cases hp : (printable email && printable bmi && printable status) = true
        · simp [hp] at hlo
        · simp [hp] at hhi
    | userBmi email => exact read_keeps_users users _ rfl
    | userMeals email => exact read_keeps_users users _ rfl
    | users => rfl

/-- C18: the claim that an answer of 400 or above leaves the stored collection as it was
fails on the code when the log line throws after `saveUsers`.  For an existing user, a new
date and a totalCalories that is an object with an own property toString, add-meal writes
the new entry and then answers 500; save-bmi does the same for such a status. -/
theorem write_then_server_error :
    handle [⟨.string "a@x.com", .string "p", .null, .string "", none⟩]
        (.addMeal (.string "a@x.com") (.string "2024-01-01")
          (.composite "\x7b\"toString\":1\x7d" false)) =
      (⟨500, .serverError⟩,
        [⟨.string "a@x.com", .string "p", .null, .string "",
          some [⟨.string "2024-01-01", .composite "\x7b\"toString\":1\x7d" false⟩]⟩]) ∧
    handle [⟨.string "a@x.com", .string "p", .null, .string "", none⟩]
        (.saveBmi (.string "a@x.com") (.number 22)
          (.composite "\x7b\"toString\":1\x7d" false)) =
      (⟨500, .serverError⟩,
        [⟨.string "a@x.com", .string "p", .number 22,
          .composite "\x7b\"toString\":1\x7d" false, none⟩]) := by
  decide

end CalorieTracker
